import Mathlib

/-!
Verification development for the ZEN schema-drift simulate/repair/verify
pipeline.  The Python source is shallowly embedded: JSON-like documents become
the inductive type `Val`, Python dictionaries become insertion-ordered
association lists with string keys, and each relevant Python function becomes
an executable Lean definition mirroring the source line by line.  Fallible
Python code (raised exceptions) is modelled with `Except PyErr`.
-/

namespace Zen

/-- A JSON-like Python value, as produced by `json.load`/`json.loads`.
Object keys are strings (as in every JSON document); `fnum` holds the lexeme
of a non-integral JSON number literal, whose IEEE-754 value is never inspected
by any code under verification. -/
inductive Val where
  | null : Val
  | bool (b : Bool) : Val
  | num (n : Int) : Val
  | fnum (lit : String) : Val
  | str (s : String) : Val
  | arr (elems : List Val) : Val
  | obj (fields : List (String × Val)) : Val
deriving Repr

mutual

/-- Structural equality test on `Val` (used to build decidable equality;
the embedded code itself never compares whole documents). -/
def valBeq : Val → Val → Bool
  | .null, .null => true
  | .bool a, .bool b => a == b
  | .num a, .num b => a == b
  | .fnum a, .fnum b => a == b
  | .str a, .str b => a == b
  | .arr as, .arr bs => listBeq as bs
  | .obj fs, .obj gs => fieldsBeq fs gs
  | _, _ => false

/-- Elementwise `valBeq` on lists of values. -/
def listBeq : List Val → List Val → Bool
  | [], [] => true
  | a :: as, b :: bs => valBeq a b && listBeq as bs
  | _, _ => false

/-- Elementwise `valBeq` on association lists. -/
def fieldsBeq : List (String × Val) → List (String × Val) → Bool
  | [], [] => true
  | (k, v) :: fs, (l, w) :: gs => k == l && valBeq v w && fieldsBeq fs gs
  | _, _ => false

end

/-- `valBeq` decides equality (used only to build the `DecidableEq`
instance below). -/
def valBeq_iff : ∀ a b : Val, valBeq a b = true ↔ a = b := by
  apply valBeq.induct
    (fun a b => valBeq a b = true ↔ a = b)
    (fun fs gs => fieldsBeq fs gs = true ↔ fs = gs)
    (fun as bs => listBeq as bs = true ↔ as = bs)
  · simp [valBeq]
  · intro a b; simp [valBeq]
  · intro a b; simp [valBeq]
  · intro a b; simp [valBeq]
  · intro a b; simp [valBeq]
  · intro as bs h; simp [valBeq, h]
  · intro fs gs h; simp [valBeq, h]
  · intro t x h1 h2 h3 h4 h5 h6 h7
    cases t <;> cases x <;>
      first
        | exact (h6 _ _ rfl rfl).elim
        | exact (h7 _ _ rfl rfl).elim
        | simp [valBeq]
  · simp [listBeq]
  · intro a as b bs h hl; simp [listBeq, h, hl]
  · intro t x h1 h2
    cases t <;> cases x <;>
      first
        | exact (h2 _ _ _ _ rfl rfl).elim
        | simp [listBeq]
  · simp [fieldsBeq]
  · intro k v fs l w gs hv hf
    simp [fieldsBeq, hv, hf, and_assoc]
  · intro t x h1 h2
    cases t <;> cases x <;>
      first
        | exact (h2 _ _ _ _ _ _ rfl rfl).elim
        | simp [fieldsBeq]

instance : DecidableEq Val := fun a b => decidable_of_iff (valBeq a b = true) (valBeq_iff a b)

instance {ε α : Type} [DecidableEq ε] [DecidableEq α] : DecidableEq (Except ε α) := fun x y =>
  match x, y with
  | .ok a, .ok b =>
    if h : a = b then isTrue (by rw [h]) else isFalse (fun hh => h (Except.ok.inj hh))
  | .error a, .error b =>
    if h : a = b then isTrue (by rw [h]) else isFalse (fun hh => h (Except.error.inj hh))
  | .ok _, .error _ => isFalse (fun hh => Except.noConfusion hh)
  | .error _, .ok _ => isFalse (fun hh => Except.noConfusion hh)

/-- A Python `dict` holding JSON data: an insertion-ordered association list.
Documents loaded from JSON have pairwise-distinct keys and every operation
below preserves that. -/
abbrev PyDict := List (String × Val)

/-- `k in d` for a Python dict. -/
def dContains (d : PyDict) (k : String) : Bool :=
  d.any (fun p => p.1 == k)

/-- `d.get(k)`: `some` value of the first (unique) entry named `k`. -/
def dGet (d : PyDict) (k : String) : Option Val :=
  (d.find? (fun p => p.1 == k)).map (fun p => p.2)

/-- `d.get(k, default)`. -/
def dGetD (d : PyDict) (k : String) (v : Val) : Val :=
  (dGet d k).getD v

/-- `d.pop(k)` (the removal part; the popped value is read with `dGet`). -/
def dPop (d : PyDict) (k : String) : PyDict :=
  match d with
  | [] => []
  | p :: rest => if p.1 == k then rest else p :: dPop rest k

/-- `d[k] = v`: replace in place if the key exists, else append. -/
def dSet (d : PyDict) (k : String) (v : Val) : PyDict :=
  match d with
  | [] => [(k, v)]
  | p :: rest => if p.1 == k then (k, v) :: rest else p :: dSet rest k v

/-- `list(d.keys())`. -/
def dKeys (d : PyDict) : List String := d.map (fun p => p.1)

/-- Python truthiness of a JSON value (`bool(v)`).  A non-integral number
literal is falsy exactly when its significand digits are all zero. -/
def floatLitIsZero (lit : String) : Bool :=
  let mantissa := lit.toList.takeWhile (fun c => c != 'e' && c != 'E')
  mantissa.all (fun c => c == '0' || c == '.' || c == '-' || c == '+')

def truthy : Val → Bool
  | .null => false
  | .bool b => b
  | .num n => !(n == 0)
  | .fnum lit => !(floatLitIsZero lit)
  | .str s => !(s == "")
  | .arr l => !l.isEmpty
  | .obj l => !l.isEmpty

/-- Truthiness of `d.get(k)` (missing key → `None` → falsy). -/
def optTruthy : Option Val → Bool
  | none => false
  | some v => truthy v

/-- Python exceptions raised by the embedded code. -/
inductive PyErr where
  | valueError (msg : String) : PyErr
  | typeError (msg : String) : PyErr
  | keyError (msg : String) : PyErr
  | runtimeError (msg : String) : PyErr
deriving DecidableEq, Repr

/-! ## The global random generator (the `random` module)

CPython's global Mersenne-Twister generator is modelled abstractly: a state
with a deterministic transition, where `random.seed` resets the state as a
function of the seed and `random.choice` consumes one draw.  The concrete
values drawn differ from CPython's, but every property proved in this file
depends only on the generator being a deterministic function of its state,
never on which element a particular draw selects. -/

/-- State of the process-global random generator. -/
structure RState where
  n : Nat
deriving DecidableEq, Repr

/-- `random.seed(s)`: the state becomes a deterministic function of `s`. -/
def rngSeedInit (s : Int) : RState := ⟨s.natAbs⟩

/-- `random.choice(l)` for nonempty `l` (the embedded code never calls it on
an empty sequence): pick the element determined by the current state and
advance the state.  `dflt` is returned only for an empty list. -/
def rngChoice {α : Type} (l : List α) (dflt : α) (g : RState) : α × RState :=
  (l.getD (g.n % l.length) dflt, ⟨g.n + 1⟩)

/-! ## Drift vocabulary (src/src/schema_drift_config.py) -/

def CANON_KEY : String := "functions"

def RENAME_VARIANTS : List String :=
  ["function", "Functions", "funcs", "fn_map", "function_map",
   "functions_map", "functions_dict"]

def WRAPPER_VARIANTS : List String :=
  ["wrapper", "new_wrapper", "new_schema", "new_layout", "wrapped",
   "temp_wrapper"]

def EXTRA_STRUCT_KEYS : List String :=
  ["extra_struct_1", "extra_struct_2", "temp_block", "temp_struct"]

/-- `find_functions_key`: the key under which the functions container
currently lives (canonical first, then the rename variants in order). -/
def find_functions_key (patch : PyDict) : Option String :=
  if dContains patch CANON_KEY then some CANON_KEY
  else RENAME_VARIANTS.find? (fun k => dContains patch k)

/-- Is the value stored under `k` in the container a dict?
(`isinstance(functions_container.get(k), dict)`). -/
def isDictAt (c : List (String × Val)) (k : String) : Bool :=
  match dGet c k with
  | some (.obj _) => true
  | _ => false

/-- `find_wrapper_key`: a wrapper-variant key whose value in the functions
container is a dict, if any (`None` when the container is not a dict). -/
def find_wrapper_key (functions_container : Val) : Option String :=
  match functions_container with
  | .obj c => WRAPPER_VARIANTS.find? (fun k => isDictAt c k)
  | _ => none

/-! ## Drift mutator (src/src/02_mutate_patch.py) -/

/-- `--mode`: which drift families to apply. -/
inductive Mode where
  | wrapper : Mode
  | rename : Mode
  | extra : Mode
  | both : Mode
  | all : Mode
  | random : Mode
deriving DecidableEq, Repr

/-- `--order`: operation order when both rename and wrap are applied. -/
inductive Order where
  | rename_then_wrap : Order
  | wrap_then_rename : Order
  | random : Order
deriving DecidableEq, Repr

/-- The mutation log record written to `mutation_log.json` (lines 168-179). -/
structure MutationRecord where
  trial_id : Option Int
  seed : Option Int
  mode : Mode
  use_rename : Bool
  rename_to : Option String
  use_wrap : Bool
  wrapper_key : Option String
  use_extra_struct : Bool
  extra_struct_key : Option String
  order : String
deriving DecidableEq, Repr

/-- `None`/int fields of the marker record. -/
def optIntVal : Option Int → Val
  | none => .null
  | some n => .num n

/-- `add_extra_struct(container)` (lines 95-109): add the chosen noise key
holding an inert marker record, unless no noise key was chosen (falsy,
which also covers the empty string) or the key is already present. -/
def add_extra_struct (extra_key : Option String) (trial_id seed : Option Int)
    (container : PyDict) : PyDict :=
  match extra_key with
  | none => container
  | some ek =>
    if ek == "" then container
    else if dContains container ek then container
    else dSet container ek (.obj
      [("note", .str "extra_struct noise field (ignorable)"),
       ("trial_id", optIntVal trial_id),
       ("seed", optIntVal seed)])

/-- `current_functions_key(p)` (lines 111-121). -/
def current_functions_key (p : PyDict) : Except PyErr String :=
  if dContains p CANON_KEY then .ok CANON_KEY
  else
    match RENAME_VARIANTS.find? (fun k => dContains p k) with
    | some k => .ok k
    | none => .error (.keyError
        "Could not locate functions dict under canonical or known renamed keys.")

/-- Lines 59-70: which drift families are active; in `random` mode three
coin flips drawn from the global generator, with a floor forcing the
wrapper drift when all three come up `False`.  Returns
`(use_rename, use_wrap, use_extra)`. -/
def driftFlags (mode : Mode) (g : RState) : (Bool × Bool × Bool) × RState :=
  match mode with
  | .random =>
    let (r, g) := rngChoice [true, false] false g
    let (w, g) := rngChoice [true, false] false g
    let (e, g) := rngChoice [true, false] false g
    if !(r || w || e) then ((r, true, e), g) else ((r, w, e), g)
  | m =>
    (((m == .rename || m == .both || m == .all),
      (m == .wrapper || m == .both || m == .all),
      (m == .extra || m == .all)), g)

/-- Lines 73-80: pick an unused rename variant, or fail when every variant
already collides with an existing top-level key. -/
def pickRenameTo (patch : PyDict) (useRename : Bool) (g : RState) :
    Except PyErr (Option String × RState) :=
  if useRename then
    let candidates := RENAME_VARIANTS.filter (fun k => !dContains patch k)
    if candidates.isEmpty then .error (.runtimeError "No available rename targets")
    else
      let (rt, g) := rngChoice candidates "" g
      .ok (some rt, g)
  else .ok (none, g)

/-- Lines 82-83: `random.choice(l) if use else None`. -/
def pickFromList (use : Bool) (l : List String) (g : RState) : Option String × RState :=
  if use then
    let (k, g) := rngChoice l "" g
    (some k, g)
  else (none, g)

/-- Lines 86-92: resolve the realized operation order (only meaningful when
both rename and wrap are applied; `"n/a"` otherwise). -/
def pickOpOrder (useRename useWrap : Bool) (order : Order) (g : RState) :
    String × RState :=
  if useRename && useWrap then
    match order with
    | .random => rngChoice ["rename_then_wrap", "wrap_then_rename"] "" g
    | .rename_then_wrap => ("rename_then_wrap", g)
    | .wrap_then_rename => ("wrap_then_rename", g)
  else ("n/a", g)

/-- The guarded rename used at lines 129-130, 139-140 and 147-148:
`if rename_to and CANON_KEY in patch and rename_to not in patch:
patch[rename_to] = patch.pop(CANON_KEY)`. -/
def applyGuardedRename (renameTo : Option String) (p : PyDict) : PyDict :=
  match renameTo with
  | some rt =>
    if rt != "" && dContains p CANON_KEY && !dContains p rt then
      dSet (dPop p CANON_KEY) rt (dGetD p CANON_KEY .null)
    else p
  | none => p

/-- Lines 132-134 and 152-155: check that the container at `fk` is a dict
(`TypeError` otherwise) and wrap it one level under `wk`. -/
def applyWrapAt (p : PyDict) (fk wk : String) : Except PyErr PyDict :=
  match dGet p fk with
  | some (.obj c) => .ok (dSet p fk (.obj [(wk, .obj c)]))
  | some _ => .error (.typeError "Expected functions value to be a dict before wrapping.")
  | none => .error (.keyError fk)

/-- Line 138: `patch[CANON_KEY] = {wrapper_key: patch[CANON_KEY]}` (no
isinstance check here; the precondition at line 123 already ran). -/
def applyWrapCanon (p : PyDict) (wk : String) : Except PyErr PyDict :=
  match dGet p CANON_KEY with
  | some v => .ok (dSet p CANON_KEY (.obj [(wk, v)]))
  | none => .error (.keyError CANON_KEY)

/-- The drift-application block (lines 127-162). -/
def applyDrifts (patch : PyDict) (useRename useWrap useExtra : Bool)
    (renameTo wrapperKey extraKey : Option String) (opOrder : String)
    (trial_id seed : Option Int) : Except PyErr PyDict :=
  if useRename && useWrap then
    match wrapperKey with
    | none =>
      -- Unreachable: `use_wrap` implies a wrapper key was chosen at line 82.
      .error (.typeError "unreachable: use_wrap set but no wrapper key chosen")
    | some wk =>
      if opOrder == "rename_then_wrap" then
        let p := applyGuardedRename renameTo patch
        match current_functions_key p with
        | .error e => .error e
        | .ok fk =>
          match applyWrapAt p fk wk with
          | .error e => .error e
          | .ok p2 => .ok (add_extra_struct extraKey trial_id seed p2)
      else if opOrder == "wrap_then_rename" then
        match applyWrapCanon patch wk with
        | .error e => .error e
        | .ok p1 => .ok (add_extra_struct extraKey trial_id seed (applyGuardedRename renameTo p1))
      else .error (.valueError ("Unexpected op_order: " ++ opOrder))
  else if useRename then
    .ok (add_extra_struct extraKey trial_id seed (applyGuardedRename renameTo patch))
  else if useWrap then
    match wrapperKey with
    | none =>
      -- Unreachable, as above.
      .error (.typeError "unreachable: use_wrap set but no wrapper key chosen")
    | some wk =>
      match current_functions_key patch with
      | .error e => .error e
      | .ok fk =>
        match applyWrapAt patch fk wk with
        | .error e => .error e
        | .ok p2 => .ok (add_extra_struct extraKey trial_id seed p2)
  else if useExtra then
    .ok (add_extra_struct extraKey trial_id seed patch)
  else .error (.runtimeError "No mutation applied.")

/-- Lines 45-46: `if args.seed is not None: random.seed(args.seed)` — this
seeds the *global* generator; with no seed the ambient state is kept. -/
def seedGen (seed : Option Int) (g0 : RState) : RState :=
  match seed with
  | some s => rngSeedInit s
  | none => g0

/-- Body of `main()` (src/src/02_mutate_patch.py lines 48-185) after the
optional reseeding, starting from global generator state `g`. -/
def mutateBody (patch : PyDict) (mode : Mode) (seed : Option Int) (order : Order)
    (trial_id : Option Int) (g : RState) :
    Except PyErr (PyDict × MutationRecord × RState) :=
  if !dContains patch CANON_KEY then
    .error (.keyError "Expected top-level key not found in patch_reference.json.")
  else
    let ((useRename, useWrap, useExtra), g) := driftFlags mode g
    match pickRenameTo patch useRename g with
    | .error e => .error e
    | .ok (renameTo, g) =>
      let (wrapperKey, g) := pickFromList useWrap WRAPPER_VARIANTS g
      let (extraKey, g) := pickFromList useExtra EXTRA_STRUCT_KEYS g
      let (opOrder, g) := pickOpOrder useRename useWrap order g
      match dGet patch CANON_KEY with
      | some (.obj _) =>
        match applyDrifts patch useRename useWrap useExtra renameTo wrapperKey
            extraKey opOrder trial_id seed with
        | .error e => .error e
        | .ok p2 =>
          .ok (p2,
            ⟨trial_id, seed, mode, useRename, renameTo, useWrap, wrapperKey,
             useExtra, extraKey, opOrder⟩, g)
      | some _ => .error (.typeError "Expected patch functions value to be a dict.")
      | none => .error (.keyError CANON_KEY)

/-- The core of `main()` in src/src/02_mutate_patch.py (lines 44-185) with
the file I/O stripped: takes the already-loaded patch, the CLI arguments
and the ambient state of the process-global random generator; returns the
mutated patch, the mutation log record and the final generator state. -/
def mutate (patch : PyDict) (mode : Mode) (seed : Option Int) (order : Order)
    (trial_id : Option Int) (g0 : RState) :
    Except PyErr (PyDict × MutationRecord × RState) :=
  mutateBody patch mode seed order trial_id (seedGen seed g0)

/-! ## Structural verifier (src/src/06_compare_original_vs_repaired.py) -/

/-- The keyset-hash slot of a functions summary: either the sentinel
`"NOT_A_DICT"` or the SHA-256 digest of the newline-joined sorted key list.
The digest itself is a `hashlib` library call whose bytes no verdict ever
inspects, so it is modelled as an opaque injective constructor. -/
inductive KeysetHash where
  | notADict : KeysetHash
  | sha256OfKeys (keys : List String) : KeysetHash
deriving DecidableEq, Repr

/-- `sha256_of_strings` (lines 12-27), abstracted as described above. -/
def sha256_of_strings (strings : List String) : KeysetHash := .sha256OfKeys strings

/-- Ascending insertion, modelling Python `sorted` on strings
(lexicographic by code point). -/
def insStr (a : String) : List String → List String
  | [] => [a]
  | b :: bs => if a < b then a :: b :: bs else b :: insStr a bs

def sortStrings (l : List String) : List String := l.foldr insStr []

/-- `summarize_functions(patch)` (lines 44-57): count, sorted key list and
keyset hash of `patch.get("functions", {})`, or `(0, [], NOT_A_DICT)` when
that value is not a dict. -/
def summarize_functions (patch : PyDict) : Nat × List String × KeysetHash :=
  match dGetD patch CANON_KEY (.obj []) with
  | .obj fns =>
    let keys := sortStrings (dKeys fns)
    (keys.length, keys, sha256_of_strings keys)
  | _ => (0, [], .notADict)

/-- The functions-keyset verdict of `main` (line 123): PASS exactly when the
sorted key lists are equal. -/
def functionsKeysetPass (orig repaired : PyDict) : Bool :=
  (summarize_functions orig).2.1 == (summarize_functions repaired).2.1

/-- Lines 134-135: the sorted top-level key list with the noise vocabulary
excluded. -/
def topLevelKeysFiltered (patch : PyDict) : List String :=
  sortStrings ((dKeys patch).filter (fun k => !EXTRA_STRUCT_KEYS.contains k))

/-- The top-level-keys verdict of `main` (line 137). -/
def topLevelKeysPass (orig repaired : PyDict) : Bool :=
  topLevelKeysFiltered orig == topLevelKeysFiltered repaired

/-! ## Excerpt extractor (`SchemaRepairPatcher.extract_excerpt`,
src/src/schema_repair_patcher.py lines 35-77) -/

/-- `str(type(x))` of the value found at the functions-container slot
(`NoneType` both for a missing container key and for a JSON `null`). -/
inductive PyType where
  | noneType : PyType
  | boolType : PyType
  | intType : PyType
  | floatType : PyType
  | strType : PyType
  | listType : PyType
  | dictType : PyType
deriving DecidableEq, Repr

def pyTypeOf : Option Val → PyType
  | none => .noneType
  | some .null => .noneType
  | some (.bool _) => .boolType
  | some (.num _) => .intType
  | some (.fnum _) => .floatType
  | some (.str _) => .strType
  | some (.arr _) => .listType
  | some (.obj _) => .dictType

/-- The schema-only excerpt dict built by `extract_excerpt`.  The source
builds a Python dict with fixed keys, three of which are only present when
the functions container is a dict; those are modelled as `Option` fields. -/
structure Excerpt where
  top_level_patch_keys_sample : List String
  has_canonical_functions : Bool
  possible_renamed_functions_keys_present : List String
  extra_struct_keys_present : List String
  functions_container_key : Option String
  functions_container_type : PyType
  functions_container_keys_sample : Option (List String)
  wrapper_key_detected_by_list : Option (Option String)
  single_key_wrapper_heuristic : Option (String × List String)
deriving DecidableEq, Repr

/-- The single-key wrapper heuristic of the dict branch (lines 70-75):
when the container has exactly one key whose value is itself a dict, name
that key as a wrapper candidate together with a sample of the inner keys. -/
def heuristicOf (c : List (String × Val)) : Option (String × List String) :=
  match c with
  | [(k, .obj inner)] => some (k, (dKeys inner).take 25)
  | _ => none

/-- `SchemaRepairPatcher.extract_excerpt(patch)` (lines 35-77). -/
def extract_excerpt (patch : PyDict) : Excerpt :=
  let functions_key := find_functions_key patch
  -- `patch.get(functions_key) if functions_key else None` (a falsy key,
  -- i.e. the empty string, would also give None; the located key is never
  -- empty, but the truthiness test is kept faithfully)
  let functions_container : Option Val :=
    match functions_key with
    | some fk => if fk == "" then none else dGet patch fk
    | none => none
  match functions_container with
  | some (.obj c) =>
    ⟨(dKeys patch).take 40,
     dContains patch CANON_KEY,
     RENAME_VARIANTS.filter (fun k => dContains patch k),
     EXTRA_STRUCT_KEYS.filter (fun k => dContains patch k),
     functions_key,
     pyTypeOf functions_container,
     some ((dKeys c).take 25),
     some (find_wrapper_key (.obj c)),
     heuristicOf c⟩
  | _ =>
    ⟨(dKeys patch).take 40,
     dContains patch CANON_KEY,
     RENAME_VARIANTS.filter (fun k => dContains patch k),
     EXTRA_STRUCT_KEYS.filter (fun k => dContains patch k),
     functions_key,
     pyTypeOf functions_container,
     none, none, none⟩

/-- Record-content erasure: a dict becomes the empty dict, anything else
becomes `null`.  Used to state that the excerpt reads only the *shape* of
the functions container, never the content of a function record. -/
def eraseRecord : Val → Val
  | .obj _ => .obj []
  | _ => .null

def eraseRecords (c : List (String × Val)) : List (String × Val) :=
  c.map (fun p => (p.1, eraseRecord p.2))

/-- Field-level erasure of a single record: keep the field names, drop the
values. -/
def eraseFields (g : List (String × Val)) : List (String × Val) :=
  g.map (fun p => (p.1, Val.null))

/-! ## JSON parsing (`json.loads`) and the oracle-response extractor
(`SchemaRepairPatcher._extract_json_object`, lines 218-256)

`json.loads` is modelled as a recursive-descent parser of the grammar
CPython's `json` module accepts by default (RFC 8259 plus the `NaN`,
`Infinity` and `-Infinity` constants), returning `none` exactly when
`json.loads` raises.  Representational notes: non-integral numbers are kept
as `fnum` lexemes (their IEEE-754 value is never used by any verified
code), and a lone surrogate in a `\uXXXX` escape — which CPython keeps as a
lone surrogate code unit — is mapped to U+FFFD, since Lean strings cannot
hold lone surrogates.  No claim depends on either. -/

def lbraceChar : Char := Char.ofNat 123

def rbraceChar : Char := Char.ofNat 125

def quoteChar : Char := Char.ofNat 34

def backslashChar : Char := Char.ofNat 92

def backtickChar : Char := Char.ofNat 96

def jsonWs (c : Char) : Bool := c == ' ' || c == '\t' || c == '\n' || c == '\r'

def skipWs (cs : List Char) : List Char := cs.dropWhile jsonWs

def isDigitChar (c : Char) : Bool := '0' ≤ c && c ≤ '9'

def hexVal (c : Char) : Option Nat :=
  if '0' ≤ c && c ≤ '9' then some (c.toNat - 48)
  else if 'a' ≤ c && c ≤ 'f' then some (c.toNat - 87)
  else if 'A' ≤ c && c ≤ 'F' then some (c.toNat - 55)
  else none

/-- Parse the body of a JSON string after the opening quote: strict mode
(raw control characters rejected), the standard escapes, and `\uXXXX` with
surrogate-pair combination. -/
def parseStringBody : Nat → List Char → List Char → Option (String × List Char)
  | 0, _, _ => none
  | fuel+1, cs, acc =>
    match cs with
    | [] => none
    | c :: rest =>
      if c == quoteChar then some (String.mk acc.reverse, rest)
      else if c == backslashChar then
        match rest with
        | [] => none
        | e :: rest2 =>
          if e == quoteChar then parseStringBody fuel rest2 (quoteChar :: acc)
          else if e == backslashChar then parseStringBody fuel rest2 (backslashChar :: acc)
          else if e == '/' then parseStringBody fuel rest2 ('/' :: acc)
          else if e == 'b' then parseStringBody fuel rest2 (Char.ofNat 8 :: acc)
          else if e == 'f' then parseStringBody fuel rest2 (Char.ofNat 12 :: acc)
          else if e == 'n' then parseStringBody fuel rest2 ('\n' :: acc)
          else if e == 'r' then parseStringBody fuel rest2 ('\r' :: acc)
          else if e == 't' then parseStringBody fuel rest2 ('\t' :: acc)
          else if e == 'u' then
            match rest2 with
            | h1 :: h2 :: h3 :: h4 :: rest3 =>
              match hexVal h1, hexVal h2, hexVal h3, hexVal h4 with
              | some a, some b, some c2, some d =>
                let n := ((a * 16 + b) * 16 + c2) * 16 + d
                if 0xD800 ≤ n && n ≤ 0xDBFF then
                  match rest3 with
                  | bs :: u :: k1 :: k2 :: k3 :: k4 :: rest4 =>
                    if bs == backslashChar && u == 'u' then
                      match hexVal k1, hexVal k2, hexVal k3, hexVal k4 with
                      | some x1, some x2, some x3, some x4 =>
                        let m := ((x1 * 16 + x2) * 16 + x3) * 16 + x4
                        if 0xDC00 ≤ m && m ≤ 0xDFFF then
                          parseStringBody fuel rest4
                            (Char.ofNat (0x10000 + (n - 0xD800) * 0x400 + (m - 0xDC00)) :: acc)
                        else parseStringBody fuel rest3 (Char.ofNat 0xFFFD :: acc)
                      | _, _, _, _ => parseStringBody fuel rest3 (Char.ofNat 0xFFFD :: acc)
                    else parseStringBody fuel rest3 (Char.ofNat 0xFFFD :: acc)
                  | _ => parseStringBody fuel rest3 (Char.ofNat 0xFFFD :: acc)
                else if 0xDC00 ≤ n && n ≤ 0xDFFF then
                  parseStringBody fuel rest3 (Char.ofNat 0xFFFD :: acc)
                else parseStringBody fuel rest3 (Char.ofNat n :: acc)
              | _, _, _, _ => none
            | _ => none
          else none
      else if c.toNat < 32 then none
      else parseStringBody fuel rest (c :: acc)

def digitsVal (ds : List Char) : Nat := ds.foldl (fun n c => n * 10 + (c.toNat - 48)) 0

/-- Lex a JSON number (CPython's NUMBER_RE): `-?(0|[1-9][0-9]*)`, optional
`.digits`, optional exponent; integral literals become `num`, all others
keep their lexeme as `fnum`. -/
def parseNumber (cs : List Char) : Option (Val × List Char) :=
  let (negChars, cs1) :=
    match cs with
    | c :: rest => if c == '-' then ([c], rest) else (([] : List Char), cs)
    | [] => ([], cs)
  match cs1 with
  | [] => none
  | d :: rest1 =>
    if !isDigitChar d then none
    else
      let (intDigits, cs2) :=
        if d == '0' then ([d], rest1)
        else (cs1.takeWhile isDigitChar, cs1.dropWhile isDigitChar)
      let (fracChars, cs3) :=
        match cs2 with
        | p :: rest2 =>
          if p == '.' && !(rest2.takeWhile isDigitChar).isEmpty then
            (p :: rest2.takeWhile isDigitChar, rest2.dropWhile isDigitChar)
          else (([] : List Char), cs2)
        | [] => ([], cs2)
      let (expChars, cs4) :=
        match cs3 with
        | p :: rest3 =>
          if p == 'e' || p == 'E' then
            let (signChars, rest4) :=
              match rest3 with
              | q :: rest5 =>
                if q == '+' || q == '-' then ([q], rest5) else (([] : List Char), rest3)
              | [] => ([], rest3)
            let ds := rest4.takeWhile isDigitChar
            if ds.isEmpty then (([] : List Char), cs3)
            else (p :: (signChars ++ ds), rest4.dropWhile isDigitChar)
          else (([] : List Char), cs3)
        | [] => ([], cs3)
      if fracChars.isEmpty && expChars.isEmpty then
        let n : Int := Int.ofNat (digitsVal intDigits)
        some (.num (if negChars.isEmpty then n else -n), cs2)
      else some (.fnum (String.mk (negChars ++ intDigits ++ fracChars ++ expChars)), cs4)

def stripPrefixChars : List Char → List Char → Option (List Char)
  | [], rest => some rest
  | p :: ps, c :: rest => if c == p then stripPrefixChars ps rest else none
  | _ :: _, [] => none

mutual

/-- Parse one JSON value (leading whitespace allowed). -/
def parseVal : Nat → List Char → Option (Val × List Char)
  | 0, _ => none
  | fuel+1, cs =>
    match skipWs cs with
    | [] => none
    | c :: rest =>
      if c == quoteChar then
        match parseStringBody (rest.length + 1) rest [] with
        | some (s, rest2) => some (.str s, rest2)
        | none => none
      else if c == lbraceChar then parseObjBody fuel rest
      else if c == '[' then parseArrBody fuel rest
      else if c == 't' then
        match stripPrefixChars ['r', 'u', 'e'] rest with
        | some rest2 => some (.bool true, rest2)
        | none => none
      else if c == 'f' then
        match stripPrefixChars ['a', 'l', 's', 'e'] rest with
        | some rest2 => some (.bool false, rest2)
        | none => none
      else if c == 'n' then
        match stripPrefixChars ['u', 'l', 'l'] rest with
        | some rest2 => some (.null, rest2)
        | none => none
      else if c == 'N' then
        match stripPrefixChars ['a', 'N'] rest with
        | some rest2 => some (.fnum "NaN", rest2)
        | none => none
      else if c == 'I' then
        match stripPrefixChars ['n', 'f', 'i', 'n', 'i', 't', 'y'] rest with
        | some rest2 => some (.fnum "Infinity", rest2)
        | none => none
      else if c == '-' then
        match stripPrefixChars ['I', 'n', 'f', 'i', 'n', 'i', 't', 'y'] rest with
        | some rest2 => some (.fnum "-Infinity", rest2)
        | none => parseNumber (c :: rest)
      else parseNumber (c :: rest)

/-- Parse an object body after the opening brace. -/
def parseObjBody : Nat → List Char → Option (Val × List Char)
  | 0, _ => none
  | fuel+1, cs =>
    match skipWs cs with
    | [] => none
    | c :: rest =>
      if c == rbraceChar then some (.obj [], rest)
      else parseMembers fuel (c :: rest) []

/-- Parse `"key": value (, "key": value)* }`, accumulating into a dict
(`dSet`, so a duplicate key overwrites in place — last value wins, first
position kept, as in a Python dict). -/
def parseMembers : Nat → List Char → PyDict → Option (Val × List Char)
  | 0, _, _ => none
  | fuel+1, cs, acc =>
    match skipWs cs with
    | [] => none
    | c :: rest =>
      if c == quoteChar then
        match parseStringBody (rest.length + 1) rest [] with
        | some (key, rest2) =>
          match skipWs rest2 with
          | [] => none
          | colon :: rest3 =>
            if colon == ':' then
              match parseVal fuel rest3 with
              | some (v, rest4) =>
                match skipWs rest4 with
                | [] => none
                | sep :: rest5 =>
                  if sep == ',' then parseMembers fuel rest5 (dSet acc key v)
                  else if sep == rbraceChar then some (.obj (dSet acc key v), rest5)
                  else none
              | none => none
            else none
        | none => none
      else none

/-- Parse an array body after the opening bracket. -/
def parseArrBody : Nat → List Char → Option (Val × List Char)
  | 0, _ => none
  | fuel+1, cs =>
    match skipWs cs with
    | [] => none
    | c :: rest =>
      if c == ']' then some (.arr [], rest)
      else parseElems fuel (c :: rest) []

/-- Parse `value (, value)* ]`. -/
def parseElems : Nat → List Char → List Val → Option (Val × List Char)
  | 0, _, _ => none
  | fuel+1, cs, acc =>
    match parseVal fuel cs with
    | some (v, rest) =>
      match skipWs rest with
      | [] => none
      | sep :: rest2 =>
        if sep == ',' then parseElems fuel rest2 (acc ++ [v])
        else if sep == ']' then some (.arr (acc ++ [v]), rest2)
        else none
    | none => none

end

/-- `json.loads` on a character list: parse one document, then require only
whitespace to follow ("Extra data" otherwise). -/
def json_loadsL (cs : List Char) : Option Val :=
  match parseVal (3 * cs.length + 3) cs with
  | some (v, rest) => if (skipWs rest).isEmpty then some v else none
  | none => none

def json_loads (s : String) : Option Val := json_loadsL s.toList

/-- Python `str.strip()` whitespace (ASCII part; the exotic unicode
whitespace CPython also strips cannot occur in the texts of interest). -/
def pySpace (c : Char) : Bool :=
  c == ' ' || c == '\t' || c == '\n' || c == '\r' ||
  c == Char.ofNat 11 || c == Char.ofNat 12

def pyStripL (cs : List Char) : List Char :=
  ((cs.dropWhile pySpace).reverse.dropWhile pySpace).reverse

/-- `str.splitlines()` restricted to the terminators `\n`, `\r\n` and `\r`
(the exotic terminators CPython also recognizes cannot occur here).  The
raw pass emits one (possibly empty) segment per terminator plus the final
segment; `pySplitlines` then drops the empty final segment a terminal line
break produces, matching Python's behavior. -/
def splitlinesRaw : Nat → List Char → List Char → List (List Char)
  | 0, _, cur => [cur.reverse]
  | fuel+1, cs, cur =>
    match cs with
    | [] => [cur.reverse]
    | c :: rest =>
      if c == '\n' then cur.reverse :: splitlinesRaw fuel rest []
      else if c == '\r' then
        match rest with
        | d :: rest2 =>
          if d == '\n' then cur.reverse :: splitlinesRaw fuel rest2 []
          else cur.reverse :: splitlinesRaw fuel rest []
        | [] => [cur.reverse, []]
      else splitlinesRaw fuel rest (c :: cur)

def pySplitlines (cs : List Char) : List (List Char) :=
  match cs with
  | [] => []
  | _ =>
    let raw := splitlinesRaw (cs.length + 1) cs []
    match raw.getLast? with
    | some [] => raw.dropLast
    | _ => raw

/-- `stripped.startswith("` ``` `")`. -/
def startsWithFence (cs : List Char) : Bool :=
  match cs with
  | a :: b :: c :: _ => a == backtickChar && b == backtickChar && c == backtickChar
  | _ => false

/-- Lines 228-234: strip, then drop the first and last line when the text
is fenced with at least three lines, and strip again. -/
def stripFences (text : String) : List Char :=
  let stripped := pyStripL text.toList
  if startsWithFence stripped then
    let lines := pySplitlines stripped
    if 3 ≤ lines.length then
      pyStripL (List.intercalate ['\n'] (lines.drop 1).dropLast)
    else stripped
  else stripped

/-- `s.find(c)`: index of the first occurrence (`none` for Python's -1). -/
def idxOfChar (c : Char) : List Char → Option Nat
  | [] => none
  | a :: rest => if a == c then some 0 else (idxOfChar c rest).map (fun i => i + 1)

/-- `s.rfind(c)`: index of the last occurrence. -/
def lastIdxOfChar (c : Char) (cs : List Char) : Option Nat :=
  (idxOfChar c cs.reverse).map (fun i => cs.length - 1 - i)

/-- `SchemaRepairPatcher._extract_json_object(text)` (lines 218-256):
try the whole fence-stripped text; otherwise slice from the first brace to
the last brace and validate; raise `ValueError` when no braces are found
or the slice does not parse. -/
def extractJsonObject (text : String) : Except PyErr String :=
  let stripped := stripFences text
  match json_loadsL stripped with
  | some _ => .ok (String.mk stripped)
  | none =>
    match idxOfChar lbraceChar stripped, lastIdxOfChar rbraceChar stripped with
    | some start, some stop =>
      if stop ≤ start then .error (.valueError "No JSON object found in LLM output.")
      else
        match json_loadsL ((stripped.drop start).take (stop + 1 - start)) with
        | some _ => .ok (String.mk ((stripped.drop start).take (stop + 1 - start)))
        | none => .error (.valueError "Extracted JSON is invalid")
    | _, _ => .error (.valueError "No JSON object found in LLM output.")

/-! ## Repair engine (`SchemaRepairPatcher.apply_plan_to_patch`,
src/src/schema_repair_patcher.py lines 155-216) -/

/-- One log line of the repair engine's action log.  The source emits
human-readable f-strings; each constructor here carries the loop index and
the values interpolated into the corresponding line. -/
inductive LogEntry where
  | invalidActionSkipped (i : Nat) : LogEntry
  | renameMissingSkipped (i : Nat) : LogEntry
  | renameApplied (i : Nat) (src dst : Val) : LogEntry
  | renameNoChange (i : Nat) (src dst : Val) : LogEntry
  | unwrapInvalidSkipped (i : Nat) : LogEntry
  | unwrapApplied (i : Nat) (wrapper_key : Val) : LogEntry
  | unwrapNoChange (i : Nat) (wrapper_key : Val) : LogEntry
  | unknownOpSkipped (i : Nat) (op : Option Val) : LogEntry
deriving DecidableEq, Repr

/-- `k in d` where `k` is an arbitrary value and `d` a string-keyed dict:
unhashable values (lists, dicts) raise `TypeError`; hashable non-string
values are never `==` to a string key. -/
def hashableKeyIn (d : PyDict) : Val → Except PyErr Bool
  | .str s => .ok (dContains d s)
  | .arr _ => .error (.typeError "unhashable type: list")
  | .obj _ => .error (.typeError "unhashable type: dict")
  | _ => .ok false

/-- Python `path == ["functions"]` where `path` is an arbitrary JSON value:
list equality holds exactly for the one-element list of the canonical key
(the canonical key is a string, so cross-type element equality is `False`). -/
def pathIsCanonList (v : Val) : Bool :=
  match v with
  | .arr [.str s] => s == CANON_KEY
  | _ => false

/-- The sort key of one plan entry, modelling
`priority.get(a.get("op") if isinstance(a, dict) else None, 99)` with
`priority = {"rename_key": 0, "unwrap": 1}`; an unhashable `op` value makes
`dict.get` raise `TypeError`. -/
def prioOf (a : Val) : Except PyErr Nat :=
  match a with
  | .obj fields =>
    match dGet fields "op" with
    | some (.str "rename_key") => .ok 0
    | some (.str "unwrap") => .ok 1
    | some (.arr _) => .error (.typeError "unhashable type: list")
    | some (.obj _) => .error (.typeError "unhashable type: dict")
    | _ => .ok 99
  | _ => .ok 99

/-- Insertion step of a stable insertion sort: the new element goes after
every already-placed element whose key is `≤` its own, modelling the
stability guarantee of Python `sorted`. -/
def insByKey (x : Val × Nat) : List (Val × Nat) → List (Val × Nat)
  | [] => [x]
  | y :: ys => if y.2 ≤ x.2 then y :: insByKey x ys else x :: y :: ys

def stableSortByKey (l : List (Val × Nat)) : List (Val × Nat) :=
  l.foldl (fun acc x => insByKey x acc) []

/-- Pair every action with its sort key, in list order, propagating the
first `TypeError` (CPython's `sorted` computes all keys before comparing). -/
def prioKeyed : List Val → Except PyErr (List (Val × Nat))
  | [] => .ok []
  | a :: rest =>
    match prioOf a with
    | .error e => .error e
    | .ok k =>
      match prioKeyed rest with
      | .error e => .error e
      | .ok ps => .ok ((a, k) :: ps)

/-- `sorted(actions, key=lambda a: priority.get(...))` (line 173): compute
every element's key, then stable-sort by key. -/
def sortActions (acts : List Val) : Except PyErr (List Val) :=
  match prioKeyed acts with
  | .error e => .error e
  | .ok keyed => .ok ((stableSortByKey keyed).map (fun p => p.1))

/-- One iteration of the action loop (lines 177-214). -/
def applyAction (patch : PyDict) (i : Nat) (a : Val) : Except PyErr (PyDict × LogEntry) :=
  match a with
  | .obj fields =>
    match dGet fields "op" with
    | some (.str "rename_key") =>
      match dGet fields "from", dGet fields "to" with
      | some sv, some dv =>
        if !truthy sv || !truthy dv then .ok (patch, .renameMissingSkipped i)
        else
          match hashableKeyIn patch sv with
          | .error e => .error e
          | .ok false => .ok (patch, .renameNoChange i sv dv)
          | .ok true =>
            match hashableKeyIn patch dv with
            | .error e => .error e
            | .ok true => .ok (patch, .renameNoChange i sv dv)
            | .ok false =>
              match sv, dv with
              | .str ss, .str ds =>
                -- `patch[dst] = patch.pop(src)`
                .ok (dSet (dPop patch ss) ds (dGetD patch ss .null), .renameApplied i sv dv)
              | _, _ =>
                -- A truthy hashable non-string `to` would make Python insert a
                -- non-string dict key; such keys cannot occur in JSON documents
                -- and are outside this embedding (string-keyed dicts), so the
                -- case is mapped to an explicit error.  (`from` is a string
                -- here, since it tested `in` a string-keyed dict.)
                .error (.typeError "non-string dict key not modelled")
      | _, _ => .ok (patch, .renameMissingSkipped i)
    | some (.str "unwrap") =>
      let path := dGetD fields "path" (.arr [])
      match dGet fields "wrapper_key" with
      | some wkv =>
        if !pathIsCanonList path || !truthy wkv then .ok (patch, .unwrapInvalidSkipped i)
        else
          match dGet patch CANON_KEY with
          | some (.obj container) =>
            match wkv with
            | .str ws =>
              match dGet container ws with
              | some (.obj inner) =>
                .ok (dSet patch CANON_KEY (.obj inner), .unwrapApplied i wkv)
              | _ => .ok (patch, .unwrapNoChange i wkv)
            | .arr _ => .error (.typeError "unhashable type: list")
            | .obj _ => .error (.typeError "unhashable type: dict")
            | _ => .ok (patch, .unwrapNoChange i wkv)
          | _ => .ok (patch, .unwrapNoChange i wkv)
      | none => .ok (patch, .unwrapInvalidSkipped i)
    | op => .ok (patch, .unknownOpSkipped i op)
  | _ => .ok (patch, .invalidActionSkipped i)

/-- The indexed loop `for i, a in enumerate(actions)` over the sorted
actions, threading the patch and collecting one log entry per action. -/
def runActions (patch : PyDict) (i : Nat) : List Val → Except PyErr (PyDict × List LogEntry)
  | [] => .ok (patch, [])
  | a :: rest =>
    match applyAction patch i a with
    | .error e => .error e
    | .ok (p, log) =>
      match runActions p (i + 1) rest with
      | .error e => .error e
      | .ok (pf, logs) => .ok (pf, log :: logs)

/-- `SchemaRepairPatcher.apply_plan_to_patch(patch, plan)`: reads
`plan.get("actions", [])`, raises `ValueError` when that value is not a
list, sorts the actions by the fixed priority (rename before unwrap) and
runs them in order, returning the final patch and the action log. -/
def apply_plan_to_patch (patch : PyDict) (plan : PyDict) : Except PyErr (PyDict × List LogEntry) :=
  match dGetD plan "actions" (.arr []) with
  | .arr acts =>
    match sortActions acts with
    | .error e => .error e
    | .ok sortedActs => runActions patch 0 sortedActs
  | _ => .error (.valueError "Plan actions must be a list.")

/-! ## Ordering facts about the action sort -/

/-- The `op` value of a plan entry (`a.get("op")` for dict entries). -/
def actionOp (a : Val) : Option Val :=
  match a with
  | .obj fields => dGet fields "op"
  | _ => none

def isRenameAction (a : Val) : Bool := actionOp a == some (.str "rename_key")

def isUnwrapAction (a : Val) : Bool := actionOp a == some (.str "unwrap")

/-! ## Claim C1 -/

/-- The unwrap action of C1's failing input: `{"op": "unwrap",
"path": ["functions"], "wrapper_key": "wrapped"}`. -/
def c1UnwrapAction : Val :=
  .obj [("op", .str "unwrap"), ("path", .arr [.str "functions"]),
        ("wrapper_key", .str "wrapped")]

/-- C1's failing plan: exactly the unwrap action above. -/
def c1Plan : PyDict := [("actions", .arr [c1UnwrapAction])]

/-- C1's failing patch: the functions container is wrapped under
`"wrapped"`, and the unwrapped container again has a `"wrapped"` key whose
value is a dict. -/
def c1Patch : PyDict :=
  [("functions", .obj [("wrapped", .obj [("wrapped", .obj [])])])]

/-! ## Claim C5 -/

/-- A `rename_key` plan entry with the given `path`, `from` and `to`. -/
def renameAction (path src dst : Val) : Val :=
  .obj [("op", .str "rename_key"), ("path", path), ("from", src), ("to", dst)]

/-- The inert marker record of a noise key. -/
def noiseMarker (tid seed : Option Int) : Val :=
  .obj [("note", .str "extra_struct noise field (ignorable)"),
        ("trial_id", optIntVal tid), ("seed", optIntVal seed)]

/-! # Theorems -/

theorem mem_insByKey {z x : Val × Nat} {l : List (Val × Nat)} :
    z ∈ insByKey x l ↔ z = x ∨ z ∈ l := by
  induction l with
  | nil => simp [insByKey]
  | cons y ys ih =>
    by_cases h : y.2 ≤ x.2
    · simp [insByKey, h, ih]
      tauto
    · simp [insByKey, h]

theorem pairwise_insByKey {x : Val × Nat} {l : List (Val × Nat)}
    (h : l.Pairwise (fun a b => a.2 ≤ b.2)) :
    (insByKey x l).Pairwise (fun a b => a.2 ≤ b.2) := by
  induction l with
  | nil => simp [insByKey]
  | cons y ys ih =>
    rw [List.pairwise_cons] at h
    obtain ⟨hy, hys⟩ := h
    by_cases hle : y.2 ≤ x.2
    · simp only [insByKey, hle, if_pos]
      rw [List.pairwise_cons]
      refine ⟨?_, ih hys⟩
      intro z hz
      rcases mem_insByKey.mp hz with rfl | hz
      · exact hle
      · exact hy z hz
    · simp only [insByKey, hle, if_neg, Bool.false_eq_true, not_false_iff]
      rw [List.pairwise_cons]
      refine ⟨?_, List.pairwise_cons.mpr ⟨hy, hys⟩⟩
      intro z hz
      rcases List.mem_cons.mp hz with rfl | hz
      · omega
      · exact le_trans (by omega) (hy z hz)

theorem mem_stableSortByKey {z : Val × Nat} {l : List (Val × Nat)}
    (h : z ∈ stableSortByKey l) : z ∈ l := by
  have hgen : ∀ (m acc : List (Val × Nat)),
      z ∈ m.foldl (fun acc x => insByKey x acc) acc → z ∈ m ∨ z ∈ acc := by
    intro m
    induction m with
    | nil => intro acc hz; exact Or.inr hz
    | cons y ys ih =>
      intro acc hz
      rcases ih (insByKey y acc) hz with hz | hz
      · exact Or.inl (List.mem_cons_of_mem _ hz)
      · rcases mem_insByKey.mp hz with rfl | hz
        · exact Or.inl (List.mem_cons_self _ _)
        · exact Or.inr hz
  rcases hgen l [] h with hz | hz
  · exact hz
  · simp at hz

theorem pairwise_stableSortByKey (l : List (Val × Nat)) :
    (stableSortByKey l).Pairwise (fun a b => a.2 ≤ b.2) := by
  suffices hgen : ∀ acc, acc.Pairwise (fun a b : Val × Nat => a.2 ≤ b.2) →
      (l.foldl (fun acc x => insByKey x acc) acc).Pairwise (fun a b => a.2 ≤ b.2) from
    hgen [] (by simp)
  induction l with
  | nil => intro acc h; exact h
  | cons y ys ih => intro acc h; exact ih _ (pairwise_insByKey h)

theorem prioKeyed_mem {acts : List Val} {keyed : List (Val × Nat)}
    (h : prioKeyed acts = .ok keyed) : ∀ p ∈ keyed, prioOf p.1 = .ok p.2 := by
  induction acts generalizing keyed with
  | nil =>
    simp only [prioKeyed] at h
    cases h
    simp
  | cons a rest ih =>
    simp only [prioKeyed] at h
    cases hp : prioOf a with
    | error e => rw [hp] at h; cases h
    | ok k =>
      rw [hp] at h
      cases hr : prioKeyed rest with
      | error e => rw [hr] at h; cases h
      | ok ps =>
        rw [hr] at h
        cases h
        intro p hpmem
        rcases List.mem_cons.mp hpmem with rfl | hpmem
        · exact hp
        · exact ih hr p hpmem

theorem isRenameAction_prio {a : Val} (h : isRenameAction a = true) : prioOf a = .ok 0 := by
  unfold isRenameAction actionOp at h
  cases a <;> simp_all [prioOf]

theorem isUnwrapAction_prio {a : Val} (h : isUnwrapAction a = true) : prioOf a = .ok 1 := by
  unfold isUnwrapAction actionOp at h
  cases a <;> simp_all [prioOf]

/-! ## Claim C4 -/

/-- C4: for every plan handed to the repair engine, the executed action list
(the output of `sortActions`, which `apply_plan_to_patch` runs in order)
places every `rename_key` action strictly before every `unwrap` action,
regardless of the order the actions appear in the plan. -/
theorem C4_rename_before_unwrap (plan : PyDict) (acts l : List Val)
    (_hacts : dGetD plan "actions" (.arr []) = .arr acts)
    (hsort : sortActions acts = .ok l)
    (i j : Nat) (hi : i < l.length) (hj : j < l.length)
    (hr : isRenameAction l[i] = true)
    (hu : isUnwrapAction l[j] = true) :
    i < j := by
  unfold sortActions at hsort
  cases hk : prioKeyed acts with
  | error e => rw [hk] at hsort; cases hsort
  | ok keyed =>
    rw [hk] at hsort
    injection hsort with hsort
    subst hsort
    have hkeys := prioKeyed_mem hk
    have hpw := pairwise_stableSortByKey keyed
    have hi2 : i < (stableSortByKey keyed).length := by simpa using hi
    have hj2 : j < (stableSortByKey keyed).length := by simpa using hj
    rw [List.getElem_map] at hr hu
    have hmemI : (stableSortByKey keyed)[i] ∈ keyed :=
      mem_stableSortByKey (List.getElem_mem _)
    have hmemJ : (stableSortByKey keyed)[j] ∈ keyed :=
      mem_stableSortByKey (List.getElem_mem _)
    have hprioI : ((stableSortByKey keyed)[i]).2 = 0 := by
      have h1 := hkeys _ hmemI
      rw [isRenameAction_prio hr] at h1
      exact (Except.ok.inj h1).symm
    have hprioJ : ((stableSortByKey keyed)[j]).2 = 1 := by
      have h1 := hkeys _ hmemJ
      rw [isUnwrapAction_prio hu] at h1
      exact (Except.ok.inj h1).symm
    by_contra hij
    push_neg at hij
    rcases Nat.lt_or_ge j i with hlt | hge
    · have := (List.pairwise_iff_getElem.mp hpw) j i hj2 hi2 hlt
      omega
    · have heq : j = i := le_antisymm hij hge
      subst heq
      rw [hprioJ] at hprioI
      cases hprioI

/-- Witness for C4: a plan listing its `unwrap` action before its
`rename_key` action is executed rename-first. -/
theorem C4_rename_before_unwrap_witness :
    sortActions
        [Val.obj [("op", .str "unwrap"), ("path", .arr [.str "functions"]),
                  ("wrapper_key", .str "wrapped")],
         Val.obj [("op", .str "rename_key"), ("path", .arr []),
                  ("from", .str "funcs"), ("to", .str "functions")]] =
      .ok [Val.obj [("op", .str "rename_key"), ("path", .arr []),
                    ("from", .str "funcs"), ("to", .str "functions")],
           Val.obj [("op", .str "unwrap"), ("path", .arr [.str "functions"]),
                    ("wrapper_key", .str "wrapped")]] ∧
    (0 : Nat) < 1 := by
  constructor
  · decide
  · exact C4_rename_before_unwrap
      [("actions", .arr
        [Val.obj [("op", .str "unwrap"), ("path", .arr [.str "functions"]),
                  ("wrapper_key", .str "wrapped")],
         Val.obj [("op", .str "rename_key"), ("path", .arr []),
                  ("from", .str "funcs"), ("to", .str "functions")]])]
      [Val.obj [("op", .str "unwrap"), ("path", .arr [.str "functions"]),
                ("wrapper_key", .str "wrapped")],
       Val.obj [("op", .str "rename_key"), ("path", .arr []),
                ("from", .str "funcs"), ("to", .str "functions")]]
      [Val.obj [("op", .str "rename_key"), ("path", .arr []),
                ("from", .str "funcs"), ("to", .str "functions")],
       Val.obj [("op", .str "unwrap"), ("path", .arr [.str "functions"]),
                ("wrapper_key", .str "wrapped")]]
      (by decide) (by decide) 0 1 (by decide) (by decide) (by decide) (by decide)

/-- C1: applying the plan once unwraps one level; applying the *same* plan
to the result unwraps *again* (logged as Applied, not a no-op), so
`apply_plan_to_patch` is not idempotent on plans whose unwrap action names a
wrapper key that also occurs (with a dict value) inside the unwrapped
functions container — exactly the case the claim includes.  The spec's
idempotence requirement is violated by the code at this input. -/
theorem C1_nested_unwrap_not_idempotent :
    apply_plan_to_patch c1Patch c1Plan =
      .ok ([("functions", .obj [("wrapped", .obj [])])],
           [.unwrapApplied 0 (.str "wrapped")]) ∧
    apply_plan_to_patch [("functions", .obj [("wrapped", .obj [])])] c1Plan =
      .ok ([("functions", .obj [])], [.unwrapApplied 0 (.str "wrapped")]) ∧
    ([("functions", Val.obj [("wrapped", .obj [])])] : PyDict) ≠
      [("functions", .obj [])] := by
  refine ⟨by decide, by decide, by decide⟩

/-- C5 counterexample: a `rename_key` action whose `path` names a segment
that does not exist in the patch is *not* rejected with `PathNotFound`: the
engine never resolves `path` at all and applies the rename at the top level,
returning an Applied log line. -/
theorem C5_path_never_resolved :
    dGet [("a", Val.num 1)] "missing" = none ∧
    apply_plan_to_patch [("a", Val.num 1)]
        [("actions", .arr [renameAction (.arr [.str "missing"]) (.str "a") (.str "b")])] =
      .ok ([("b", Val.num 1)], [.renameApplied 0 (.str "a") (.str "b")]) := by
  refine ⟨by decide, by decide⟩

/-- C5 (amended): the engine ignores `path` entirely — the outcome of a
`rename_key` action is the same for any two `path` values; when `from` and
`to` are truthy strings it moves the top-level value exactly when `from`
exists and `to` does not, and otherwise logs a no-op (no error of any
kind). -/
theorem C5_rename_ignores_path (patch : PyDict) (i : Nat) (p₁ p₂ src dst : Val) :
    (applyAction patch i (renameAction p₁ src dst) =
      applyAction patch i (renameAction p₂ src dst)) ∧
    (∀ s d : String, src = .str s → dst = .str d → s ≠ "" → d ≠ "" →
      dContains patch s = false →
      applyAction patch i (renameAction p₁ src dst) =
        .ok (patch, .renameNoChange i src dst)) ∧
    (∀ s d : String, src = .str s → dst = .str d → s ≠ "" → d ≠ "" →
      dContains patch d = true →
      applyAction patch i (renameAction p₁ src dst) =
        .ok (patch, .renameNoChange i src dst)) ∧
    (∀ s d : String, src = .str s → dst = .str d → s ≠ "" → d ≠ "" →
      dContains patch s = true → dContains patch d = false →
      applyAction patch i (renameAction p₁ src dst) =
        .ok (dSet (dPop patch s) d (dGetD patch s .null), .renameApplied i src dst)) := by
  refine ⟨rfl, ?_, ?_, ?_⟩
  · rintro s d rfl rfl hs hd hin
    simp [applyAction, renameAction, dGet, truthy, hashableKeyIn, hin]
    exact ⟨hs, hd⟩
  · rintro s d rfl rfl hs hd hin
    by_cases hsrc : dContains patch s
    all_goals
      simp [applyAction, renameAction, dGet, truthy, hashableKeyIn, hin, hsrc]
    all_goals exact ⟨hs, hd⟩
  · rintro s d rfl rfl hs hd hsin hdin
    simp [applyAction, renameAction, dGet, dGetD, truthy, hashableKeyIn, hsin, hdin]
    exact ⟨hs, hd⟩

/-- Witness for the amended C5: a rename with an absent `from` key is a
logged no-op rather than an error. -/
theorem C5_rename_ignores_path_witness :
    applyAction [("a", Val.num 1)] 0 (renameAction (.arr [.str "x"]) (.str "zz") (.str "b")) =
      .ok ([("a", Val.num 1)], .renameNoChange 0 (.str "zz") (.str "b")) :=
  (C5_rename_ignores_path [("a", Val.num 1)] 0 (.arr [.str "x"]) (.arr []) (.str "zz")
    (.str "b")).2.1 "zz" "b" rfl rfl (by decide) (by decide) (by decide)

/-! ## Claim C10 -/

/-- C10: a plan with no `"actions"` key at all is treated as an empty plan
(the patch comes back unchanged with an empty log and no error), while a
plan whose `"actions"` value is present but not a list raises `ValueError`
before any action runs. -/
theorem C10_plan_shape (patch plan : PyDict) :
    (dGet plan "actions" = none → apply_plan_to_patch patch plan = .ok (patch, [])) ∧
    (∀ v, dGet plan "actions" = some v → (∀ acts, v ≠ .arr acts) →
      apply_plan_to_patch patch plan =
        .error (.valueError "Plan actions must be a list.")) := by
  constructor
  · intro h
    simp [apply_plan_to_patch, dGetD, h, sortActions, prioKeyed, stableSortByKey, runActions]
  · intro v h hne
    cases v <;> simp_all [apply_plan_to_patch, dGetD]

/-- Witness for C10: a concrete plan without `"actions"` is a no-op; a
concrete plan with `"actions": 3` is a fatal `ValueError`. -/
theorem C10_plan_shape_witness :
    apply_plan_to_patch [("a", Val.num 1)] [("x", .num 2)] =
      .ok ([("a", Val.num 1)], []) ∧
    apply_plan_to_patch [("a", Val.num 1)] [("actions", .num 3)] =
      .error (.valueError "Plan actions must be a list.") := by
  constructor
  · exact (C10_plan_shape [("a", Val.num 1)] [("x", .num 2)]).1 (by decide)
  · exact (C10_plan_shape [("a", Val.num 1)] [("actions", .num 3)]).2 (.num 3)
      (by decide) (fun acts h => Val.noConfusion h)

/-! ## Claim C3 -/

/-- C3 counterexample: two runs of `mutate` with identical `seed`, `mode`
and `order` arguments (no seed — the argument's default) produce different
mutated patches when the ambient state of the process-wide generator
differs: the wrapper key is drawn from the global `random` module, not from
an owned, explicitly seeded generator instance. -/
theorem C3_unseeded_runs_differ :
    (mutate [("functions", Val.obj [])] .wrapper none .random none ⟨0⟩).map (fun r => r.1) =
      .ok [("functions", Val.obj [("wrapper", .obj [])])] ∧
    (mutate [("functions", Val.obj [])] .wrapper none .random none ⟨1⟩).map (fun r => r.1) =
      .ok [("functions", Val.obj [("new_wrapper", .obj [])])] ∧
    (mutate [("functions", Val.obj [])] .wrapper none .random none ⟨0⟩).map (fun r => r.1) ≠
      (mutate [("functions", Val.obj [])] .wrapper none .random none ⟨1⟩).map (fun r => r.1) := by
  refine ⟨by decide, by decide, by decide⟩

/-- C3 (amended): when a seed is supplied, `mutate` is deterministic — the
whole result (mutated patch, mutation record, final generator state) is
independent of the ambient global-generator state, because `random.seed`
deterministically resets that state before any draw.  With no seed the
result depends on the ambient state (see the counterexample), and in both
cases the draws come from the process-global generator, not an owned
instance. -/
theorem C3_seeded_determinism (patch : PyDict) (mode : Mode) (s : Int)
    (order : Order) (trial_id : Option Int) (g0 g1 : RState) :
    mutate patch mode (some s) order trial_id g0 =
      mutate patch mode (some s) order trial_id g1 := rfl

/-! ## Claim C6 -/

theorem pickRenameTo_error {p : PyDict} {u : Bool} {g : RState} {e : PyErr}
    (h : pickRenameTo p u g = .error e) :
    e = .runtimeError "No available rename targets" := by
  unfold pickRenameTo at h
  by_cases hu : u
  · rw [if_pos hu] at h
    by_cases hc : (RENAME_VARIANTS.filter (fun k => !dContains p k)).isEmpty
    · rw [if_pos hc] at h
      exact (Except.error.inj h).symm
    · rw [if_neg hc] at h
      cases h
  · rw [if_neg hu] at h
    cases h

/-- C6 (amended): the mutator's precondition failures, for every mode, seed,
order and ambient generator state.  A patch without the canonical key always
fails with `KeyError` (the spec's `SchemaViolation`) before any drift is
applied.  A patch whose canonical value is not a mapping also fails before
any drift is applied, but with either `TypeError` (`SchemaViolation`) or —
when the rename drift is selected and every rename variant already collides
with an existing top-level key — `RuntimeError` (`NoAvailableTarget`), which
the code raises first. -/
theorem C6_precondition_failures (patch : PyDict) (mode : Mode) (seed : Option Int)
    (order : Order) (trial_id : Option Int) (g0 : RState) :
    (dContains patch CANON_KEY = false →
      mutate patch mode seed order trial_id g0 =
        .error (.keyError "Expected top-level key not found in patch_reference.json.")) ∧
    (∀ v, dContains patch CANON_KEY = true → dGet patch CANON_KEY = some v →
      (∀ fs, v ≠ Val.obj fs) →
      (mutate patch mode seed order trial_id g0 =
          .error (.typeError "Expected patch functions value to be a dict.") ∨
        mutate patch mode seed order trial_id g0 =
          .error (.runtimeError "No available rename targets"))) := by
  constructor
  · intro h
    simp [mutate, mutateBody, h]
  · intro v hc hv hnv
    unfold mutate mutateBody
    rw [hc]
    simp only [Bool.not_true, Bool.false_eq_true, if_false]
    rcases hfl : driftFlags mode (seedGen seed g0) with ⟨⟨r, w, e⟩, g1⟩
    cases hpr : pickRenameTo patch r g1 with
    | error e1 =>
      right
      simp only [hpr]
      rw [pickRenameTo_error hpr]
    | ok pair =>
      obtain ⟨rt, g2⟩ := pair
      left
      -- The conditional matcher equation for the non-dict arm is discharged
      -- by `hnv` from the local context.
      simp only [hpr, hv]

/-- C6 counterexample: a patch whose canonical value is *not* a mapping but
which already contains every rename variant fails, in rename mode, with
`RuntimeError` (`NoAvailableTarget`) — not with the `SchemaViolation`
(`KeyError`/`TypeError`) the claim requires for every supported mode. -/
theorem C6_no_target_preempts_type_check :
    dGet [("functions", Val.num 0), ("function", .num 0), ("Functions", .num 0),
          ("funcs", .num 0), ("fn_map", .num 0), ("function_map", .num 0),
          ("functions_map", .num 0), ("functions_dict", .num 0)] CANON_KEY =
      some (.num 0) ∧
    mutate [("functions", Val.num 0), ("function", .num 0), ("Functions", .num 0),
            ("funcs", .num 0), ("fn_map", .num 0), ("function_map", .num 0),
            ("functions_map", .num 0), ("functions_dict", .num 0)]
        .rename none .random none ⟨0⟩ =
      .error (.runtimeError "No available rename targets") := by
  refine ⟨by decide, by decide⟩

/-- Witness for the amended C6: a patch without the canonical key fails with
`KeyError`; a patch whose canonical value is `None` fails with `TypeError`
in wrapper mode. -/
theorem C6_precondition_failures_witness :
    mutate [("x", Val.null)] .wrapper none .random none ⟨0⟩ =
      .error (.keyError "Expected top-level key not found in patch_reference.json.") ∧
    (mutate [("functions", Val.null)] .wrapper none .random none ⟨0⟩ =
        .error (.typeError "Expected patch functions value to be a dict.") ∨
      mutate [("functions", Val.null)] .wrapper none .random none ⟨0⟩ =
        .error (.runtimeError "No available rename targets")) := by
  constructor
  · exact (C6_precondition_failures [("x", Val.null)] .wrapper none .random none ⟨0⟩).1
      (by decide)
  · exact (C6_precondition_failures [("functions", Val.null)] .wrapper none .random none
      ⟨0⟩).2 .null (by decide) (by decide) (fun fs h => Val.noConfusion h)

/-! ## Dictionary and sorting lemmas -/

theorem dGet_dSet_ne {d : PyDict} {k kp : String} {v : Val} (h : kp ≠ k) :
    dGet (dSet d k v) kp = dGet d kp := by
  have hbeq : (k == kp) = false := beq_eq_false_iff_ne.mpr (Ne.symm h)
  induction d with
  | nil => simp [dSet, dGet, List.find?, hbeq]
  | cons p rest ih =>
    by_cases hpk : (p.1 == k) = true
    · have hp1 : p.1 = k := by simpa using hpk
      have hpkp : (p.1 == kp) = false := by rw [hp1]; exact hbeq
      simp [dSet, hpk, dGet, List.find?, hbeq, hpkp]
    · have hpkb : (p.1 == k) = false := by simpa using hpk
      by_cases hpq : (p.1 == kp) = true
      · simp [dSet, hpkb, dGet, List.find?, hpq]
      · have hpqb : (p.1 == kp) = false := by simpa using hpq
        simp only [dGet] at ih
        simp [dSet, hpkb, dGet, List.find?, hpqb, ih]

theorem dKeys_dSet_of_not_contains {d : PyDict} {k : String} {v : Val}
    (h : dContains d k = false) : dKeys (dSet d k v) = dKeys d ++ [k] := by
  induction d with
  | nil => simp [dSet, dKeys]
  | cons p rest ih =>
    simp only [dContains, List.any_cons, Bool.or_eq_false_iff] at h
    obtain ⟨hp, hrest⟩ := h
    simp only [dSet, hp, Bool.false_eq_true, if_false, dKeys, List.map_cons]
    have := ih (by simpa [dContains] using hrest)
    simp only [dKeys] at this
    rw [this]
    rfl

theorem mem_insStr {x a : String} {l : List String} :
    x ∈ insStr a l ↔ x = a ∨ x ∈ l := by
  induction l with
  | nil => simp [insStr]
  | cons b bs ih =>
    by_cases h : a < b
    · simp [insStr, h]
    · simp [insStr, h, ih]
      tauto

theorem mem_sortStrings {x : String} {l : List String} :
    x ∈ sortStrings l ↔ x ∈ l := by
  induction l with
  | nil => simp [sortStrings]
  | cons a as ih =>
    simp only [sortStrings, List.foldr_cons] at ih ⊢
    rw [mem_insStr, ih]
    simp

theorem add_extra_struct_cases (ek : String) (tid seed : Option Int) (d : PyDict)
    (hne : ek ≠ "") :
    (dContains d ek = true ∧ add_extra_struct (some ek) tid seed d = d) ∨
    (dContains d ek = false ∧
      add_extra_struct (some ek) tid seed d = dSet d ek (noiseMarker tid seed)) := by
  simp only [add_extra_struct]
  rw [if_neg (by simpa using hne)]
  by_cases h : dContains d ek
  · left
    exact ⟨h, by rw [if_pos h]⟩
  · right
    refine ⟨by simpa using h, ?_⟩
    rw [if_neg h]
    rfl

theorem find_functions_key_mem {d : PyDict} {fk : String}
    (h : find_functions_key d = some fk) : fk = CANON_KEY ∨ fk ∈ RENAME_VARIANTS := by
  unfold find_functions_key at h
  by_cases hc : dContains d CANON_KEY
  · rw [if_pos hc] at h
    exact Or.inl (Option.some.inj h).symm
  · rw [if_neg hc] at h
    exact Or.inr (List.mem_of_find?_eq_some h)

/-! ## Claim C2 -/

/-- C2 counterexample: two documents that *both* lack a mapping at the
canonical key (here `null` and the number `7`) are each summarized as
`(0, [], NOT_A_DICT)`, yet the functions-keyset check PASSES, because the
verdict compares only the (both empty) sorted key lists — there is no
automatic fail for a `NOT_A_DICT` side. -/
theorem C2_both_non_mapping_pass :
    summarize_functions [("functions", Val.null)] = (0, [], .notADict) ∧
    summarize_functions [("functions", Val.num 7)] = (0, [], .notADict) ∧
    functionsKeysetPass [("functions", Val.null)] [("functions", Val.num 7)] = true := by
  refine ⟨by decide, by decide, by decide⟩

/-- C2 (amended): when the canonical key's value is not a mapping the
summary is `(0, [], NOT_A_DICT)`; but the functions-keyset verdict compares
only the sorted key lists, so a non-mapping side is compared as an empty
key set and two documents that both lack a mapping at the canonical key
PASS the check rather than failing automatically. -/
theorem C2_not_a_dict_summary (orig repaired : PyDict) :
    ((∀ fs, dGetD orig CANON_KEY (.obj []) ≠ Val.obj fs) →
      summarize_functions orig = (0, [], .notADict)) ∧
    ((∀ fs, dGetD orig CANON_KEY (.obj []) ≠ Val.obj fs) →
     (∀ fs, dGetD repaired CANON_KEY (.obj []) ≠ Val.obj fs) →
      functionsKeysetPass orig repaired = true) := by
  have hsum : ∀ p : PyDict, (∀ fs, dGetD p CANON_KEY (.obj []) ≠ Val.obj fs) →
      summarize_functions p = (0, [], .notADict) := by
    intro p hp
    unfold summarize_functions
    cases hv : dGetD p CANON_KEY (.obj []) with
    | obj fs => exact absurd hv (hp fs)
    | null => rfl
    | bool b => rfl
    | num n => rfl
    | fnum l => rfl
    | str s => rfl
    | arr l => rfl
  constructor
  · exact hsum orig
  · intro h1 h2
    unfold functionsKeysetPass
    rw [hsum orig h1, hsum repaired h2]
    rfl

/-- Witness for the amended C2: a string on one side and a boolean on the
other are both summarized `NOT_A_DICT` and the check passes. -/
theorem C2_not_a_dict_summary_witness :
    summarize_functions [("functions", Val.str "oops")] = (0, [], .notADict) ∧
    functionsKeysetPass [("functions", Val.str "oops")] [("functions", Val.bool true)] = true := by
  constructor
  · exact (C2_not_a_dict_summary [("functions", Val.str "oops")] []).1
      (fun fs h => Val.noConfusion h)
  · exact (C2_not_a_dict_summary [("functions", Val.str "oops")]
      [("functions", Val.bool true)]).2
      (fun fs h => Val.noConfusion h) (fun fs h => Val.noConfusion h)

/-! ## Claim C7 -/

/-- C7: noise injection never touches the functions container and never
shows up in the verifier's top-level comparison: for every noise-vocabulary
key, (a) the value at the located functions-container key is unchanged,
(b) the functions summary (hence keyset equality) is unchanged, (c) the
injection is skipped when the key is already present, (d) the filtered
top-level key list compared by the verifier is unchanged, and (e) the noise
key never appears in that list. -/
theorem C7_noise_never_touches_functions (d : PyDict) (ek : String)
    (tid seed : Option Int) (hek : ek ∈ EXTRA_STRUCT_KEYS) :
    (∀ fk, find_functions_key d = some fk →
      dGet (add_extra_struct (some ek) tid seed d) fk = dGet d fk) ∧
    (summarize_functions (add_extra_struct (some ek) tid seed d) =
      summarize_functions d) ∧
    (dContains d ek = true → add_extra_struct (some ek) tid seed d = d) ∧
    (topLevelKeysFiltered (add_extra_struct (some ek) tid seed d) =
      topLevelKeysFiltered d) ∧
    (ek ∉ topLevelKeysFiltered (add_extra_struct (some ek) tid seed d)) := by
  have hprops : ek ≠ "" ∧ ek ≠ CANON_KEY ∧ ek ∉ RENAME_VARIANTS ∧
      EXTRA_STRUCT_KEYS.contains ek = true := by
    fin_cases hek <;> exact ⟨by decide, by decide, by decide, by decide⟩
  obtain ⟨hne, hcanon, hren, hcont⟩ := hprops
  have hcases := add_extra_struct_cases ek tid seed d hne
  refine ⟨?_, ?_, ?_, ?_, ?_⟩
  · intro fk hfk
    have hfkne : fk ≠ ek := by
      rcases find_functions_key_mem hfk with rfl | hmem
      · exact fun hh => hcanon hh.symm
      · exact fun hh => hren (hh ▸ hmem)
    rcases hcases with ⟨_, heq⟩ | ⟨_, heq⟩
    · rw [heq]
    · rw [heq, dGet_dSet_ne hfkne]
  · rcases hcases with ⟨_, heq⟩ | ⟨_, heq⟩
    · rw [heq]
    · unfold summarize_functions dGetD
      rw [heq, dGet_dSet_ne (fun hh => hcanon hh.symm)]
  · intro h
    rcases hcases with ⟨_, heq⟩ | ⟨hnc, _⟩
    · exact heq
    · rw [h] at hnc
      cases hnc
  · rcases hcases with ⟨_, heq⟩ | ⟨hnc, heq⟩
    · rw [heq]
    · unfold topLevelKeysFiltered
      rw [heq, dKeys_dSet_of_not_contains hnc, List.filter_append]
      simp [hek]
  · intro hmem
    unfold topLevelKeysFiltered at hmem
    rw [mem_sortStrings] at hmem
    have := List.of_mem_filter hmem
    simp [hcont] at this
    exact this hek

/-- Witness for C7 at a concrete patch and noise key. -/
theorem C7_noise_never_touches_functions_witness :
    dGet (add_extra_struct (some "temp_block") (some 7) (some 3)
        [("functions", Val.obj [("f1", .null)])]) "functions" =
      dGet [("functions", Val.obj [("f1", .null)])] "functions" ∧
    summarize_functions (add_extra_struct (some "temp_block") (some 7) (some 3)
        [("functions", Val.obj [("f1", .null)])]) =
      summarize_functions [("functions", Val.obj [("f1", .null)])] := by
  constructor
  · exact (C7_noise_never_touches_functions [("functions", Val.obj [("f1", .null)])]
      "temp_block" (some 7) (some 3) (by decide)).1 "functions" (by decide)
  · exact (C7_noise_never_touches_functions [("functions", Val.obj [("f1", .null)])]
      "temp_block" (some 7) (some 3) (by decide)).2.1

/-! ## Further dictionary lemmas (for the excerpt extractor) -/

theorem dGet_dSet_self {d : PyDict} {k : String} {v : Val} :
    dGet (dSet d k v) k = some v := by
  induction d with
  | nil => simp [dSet, dGet, List.find?]
  | cons p rest ih =>
    by_cases hpk : (p.1 == k) = true
    · simp [dSet, hpk, dGet, List.find?]
    · have hpkb : (p.1 == k) = false := by simpa using hpk
      simp only [dGet] at ih
      simp [dSet, hpkb, dGet, List.find?, ih]

theorem dContains_of_dGet_some {d : PyDict} {k : String} {v : Val}
    (h : dGet d k = some v) : dContains d k = true := by
  induction d with
  | nil => simp [dGet, List.find?] at h
  | cons p rest ih =>
    by_cases hpk : (p.1 == k) = true
    · simp [dContains, hpk]
    · have hpkb : (p.1 == k) = false := by simpa using hpk
      simp only [dGet, List.find?, hpkb] at h
      simp only [dContains, List.any_cons, hpkb, Bool.false_or]
      exact ih h

theorem dKeys_dSet_of_contains {d : PyDict} {k : String} {v : Val}
    (h : dContains d k = true) : dKeys (dSet d k v) = dKeys d := by
  induction d with
  | nil => simp [dContains] at h
  | cons p rest ih =>
    by_cases hpk : (p.1 == k) = true
    · have hp1 : p.1 = k := by simpa using hpk
      simp [dSet, hpk, dKeys, hp1]
    · have hpkb : (p.1 == k) = false := by simpa using hpk
      simp only [dContains, List.any_cons, hpkb, Bool.false_or] at h
      have hrec := ih (by simpa [dContains] using h)
      simp only [dKeys] at hrec
      simp [dSet, hpkb, dKeys, hrec]

theorem dContains_eq_keys {d : PyDict} {k : String} :
    dContains d k = (dKeys d).any (fun x => x == k) := by
  induction d with
  | nil => rfl
  | cons p rest ih =>
    simp only [dContains, dKeys, List.map_cons, List.any_cons] at ih ⊢
    rw [ih]

theorem dGet_map_value {c : List (String × Val)} {k : String} {f : Val → Val} :
    dGet (c.map (fun p => (p.1, f p.2))) k = (dGet c k).map f := by
  induction c with
  | nil => simp [dGet, List.find?]
  | cons p rest ih =>
    by_cases hpk : (p.1 == k) = true
    · simp [dGet, List.find?, hpk]
    · have hpkb : (p.1 == k) = false := by simpa using hpk
      simp only [dGet, List.map_cons, List.find?, hpkb] at ih ⊢
      exact ih

theorem find?_congr_pred {α : Type} {p q : α → Bool} {l : List α}
    (h : ∀ a, p a = q a) : l.find? p = l.find? q := by
  induction l with
  | nil => rfl
  | cons a as ih => rw [List.find?_cons, List.find?_cons, h a, ih]

theorem find_functions_key_congr {d1 d2 : PyDict}
    (h : ∀ k, dContains d1 k = dContains d2 k) :
    find_functions_key d1 = find_functions_key d2 := by
  unfold find_functions_key
  rw [h CANON_KEY, find?_congr_pred (fun k => h k)]

theorem find_functions_key_not_empty {d : PyDict} {fk : String}
    (h : find_functions_key d = some fk) : (fk == "") = false := by
  rcases find_functions_key_mem h with rfl | hmem
  · decide
  · fin_cases hmem <;> decide

/-! ## Claim C9 -/

theorem heuristicOf_isSome {c : List (String × Val)} :
    (heuristicOf c).isSome = true ↔ ∃ k inner, c = [(k, .obj inner)] := by
  constructor
  · intro h
    rcases c with _ | ⟨⟨k, v⟩, rest⟩
    · simp [heuristicOf] at h
    · rcases rest with _ | ⟨q, rest2⟩
      · cases v
        case obj inner => exact ⟨k, inner, rfl⟩
        all_goals simp [heuristicOf] at h
      · simp [heuristicOf] at h
  · rintro ⟨k, inner, rfl⟩
    rfl

theorem heuristicOf_bound {c : List (String × Val)} {k : String} {inner : List String}
    (h : heuristicOf c = some (k, inner)) : inner.length ≤ 25 := by
  unfold heuristicOf at h
  split at h
  · injection h with h2
    injection h2 with ha hb
    subst hb
    rw [List.length_take]
    omega
  · cases h

theorem extract_excerpt_frame {patch : PyDict} {fk : String}
    {c c2 : List (String × Val)}
    (hfk : find_functions_key patch = some fk)
    (hget : dGet patch fk = some (.obj c))
    (hkeys : dKeys c2 = dKeys c)
    (hwrap : ∀ k, isDictAt c2 k = isDictAt c k)
    (hheur : heuristicOf c2 = heuristicOf c) :
    extract_excerpt (dSet patch fk (.obj c2)) = extract_excerpt patch := by
  have hcfk : dContains patch fk = true := dContains_of_dGet_some hget
  have hK : dKeys (dSet patch fk (.obj c2)) = dKeys patch :=
    dKeys_dSet_of_contains hcfk
  have hC : ∀ k, dContains (dSet patch fk (.obj c2)) k = dContains patch k := by
    intro k
    rw [dContains_eq_keys, dContains_eq_keys, hK]
  have hF : find_functions_key (dSet patch fk (.obj c2)) = some fk :=
    (find_functions_key_congr hC).trans hfk
  have hne : (fk == "") = false := find_functions_key_not_empty hfk
  have hG : dGet (dSet patch fk (.obj c2)) fk = some (.obj c2) := dGet_dSet_self
  have hWrapEq : find_wrapper_key (.obj c2) = find_wrapper_key (.obj c) := by
    unfold find_wrapper_key
    exact find?_congr_pred (fun k => hwrap k)
  unfold extract_excerpt
  rw [hF, hfk]
  simp only [hne, Bool.false_eq_true, if_false]
  rw [hG, hget]
  simp only [Excerpt.mk.injEq]
  refine ⟨by rw [hK], hC CANON_KEY, List.filter_congr (fun k _ => hC k),
    List.filter_congr (fun k _ => hC k), trivial, rfl, by rw [hkeys], by rw [hWrapEq], hheur⟩

/-- C9: the excerpt extractor is a pure function of the patch with bounded
output — at most 40 sampled top-level keys, at most 25 sampled container
keys and at most 25 inner keys in the heuristic —, it emits the single-key
wrapper heuristic exactly when the located functions container is a mapping
with exactly one key whose value is itself a mapping, and it never includes
function-record content: erasing every record's content (keeping only each
record's dict-ness when the container has at least two records, and only
the field names of the sole record otherwise) leaves the excerpt
unchanged. -/
theorem C9_excerpt_bounded_and_content_free (patch : PyDict) :
    (extract_excerpt patch).top_level_patch_keys_sample.length ≤ 40 ∧
    (∀ ks, (extract_excerpt patch).functions_container_keys_sample = some ks →
      ks.length ≤ 25) ∧
    (∀ k inner, (extract_excerpt patch).single_key_wrapper_heuristic = some (k, inner) →
      inner.length ≤ 25) ∧
    ((extract_excerpt patch).single_key_wrapper_heuristic.isSome = true ↔
      (∃ fk k inner, find_functions_key patch = some fk ∧
        dGet patch fk = some (.obj [(k, .obj inner)]))) ∧
    (∀ fk c, find_functions_key patch = some fk → dGet patch fk = some (.obj c) →
      2 ≤ c.length →
      extract_excerpt (dSet patch fk (.obj (eraseRecords c))) = extract_excerpt patch) ∧
    (∀ fk k g, find_functions_key patch = some fk →
      dGet patch fk = some (.obj [(k, .obj g)]) →
      extract_excerpt (dSet patch fk (.obj [(k, .obj (eraseFields g))])) =
        extract_excerpt patch) := by
  have hbase : (extract_excerpt patch).top_level_patch_keys_sample = (dKeys patch).take 40 := by
    unfold extract_excerpt
    dsimp only
    split <;> rfl
  refine ⟨?_, ?_, ?_, ?_, ?_, ?_⟩
  · rw [hbase, List.length_take]
    omega
  · intro ks h
    revert h
    unfold extract_excerpt
    dsimp only
    split
    · intro h
      obtain rfl := Option.some.inj h
      rw [List.length_take]
      omega
    · intro h
      cases h
  · intro k inner h
    revert h
    unfold extract_excerpt
    dsimp only
    split
    · intro h
      exact heuristicOf_bound h
    · intro h
      cases h
  · cases hfk : find_functions_key patch with
    | none =>
      constructor
      · intro h
        exfalso
        revert h
        unfold extract_excerpt
        rw [hfk]
        simp
      · rintro ⟨fk, k, inner, hfk2, _⟩
        exact Option.noConfusion hfk2
    | some fk =>
      have hne := find_functions_key_not_empty hfk
      cases hget : dGet patch fk with
      | none =>
        constructor
        · intro h
          exfalso
          revert h
          unfold extract_excerpt
          rw [hfk]
          simp only [hne, Bool.false_eq_true, if_false]
          rw [hget]
          simp
        · rintro ⟨fk2, k, inner, hfk2, hget2⟩
          obtain rfl := Option.some.inj hfk2
          rw [hget] at hget2
          cases hget2
      | some v =>
        have hnonobj : (∀ fs, v ≠ Val.obj fs) →
            ((extract_excerpt patch).single_key_wrapper_heuristic.isSome = true ↔
              (∃ fk2 k inner, (some fk : Option String) = some fk2 ∧
                dGet patch fk2 = some (.obj [(k, .obj inner)]))) := by
          intro hv
          constructor
          · intro h
            exfalso
            revert h
            unfold extract_excerpt
            rw [hfk]
            simp only [hne, Bool.false_eq_true, if_false]
            rw [hget]
            cases v with
            | obj fs => exact absurd rfl (hv fs)
            | null => simp
            | bool b => simp
            | num n => simp
            | fnum l => simp
            | str sv => simp
            | arr l => simp
          · rintro ⟨fk2, k2, inner, hfk2, hget2⟩
            obtain rfl := Option.some.inj hfk2
            rw [hget] at hget2
            exact absurd (Option.some.inj hget2) (hv _)
        cases v with
        | obj c =>
          have hred : (extract_excerpt patch).single_key_wrapper_heuristic = heuristicOf c := by
            unfold extract_excerpt
            rw [hfk]
            simp only [hne, Bool.false_eq_true, if_false]
            rw [hget]
          rw [hred, heuristicOf_isSome]
          constructor
          · rintro ⟨k, inner, rfl⟩
            exact ⟨fk, k, inner, rfl, hget⟩
          · rintro ⟨fk2, k, inner, hfk2, hget2⟩
            obtain rfl := Option.some.inj hfk2
            rw [hget] at hget2
            obtain h3 := Val.obj.inj (Option.some.inj hget2)
            exact ⟨k, inner, h3⟩
        | null => exact hnonobj (fun fs h => Val.noConfusion h)
        | bool b => exact hnonobj (fun fs h => Val.noConfusion h)
        | num n => exact hnonobj (fun fs h => Val.noConfusion h)
        | fnum l => exact hnonobj (fun fs h => Val.noConfusion h)
        | str sv => exact hnonobj (fun fs h => Val.noConfusion h)
        | arr l => exact hnonobj (fun fs h => Val.noConfusion h)
  · intro fk c hfk hget hlen
    refine extract_excerpt_frame hfk hget ?_ ?_ ?_
    · simp [eraseRecords, dKeys]
    · intro k
      unfold isDictAt eraseRecords
      rw [dGet_map_value]
      cases hg : dGet c k with
      | none => rfl
      | some v => cases v <;> rfl
    · rcases c with _ | ⟨p, _ | ⟨q, rest⟩⟩
      · simp at hlen
      · simp at hlen
      · obtain ⟨kp, vp⟩ := p
        obtain ⟨kq, vq⟩ := q
        simp only [eraseRecords, List.map_cons]
        cases vp <;> rfl
  · intro fk k g hfk hget
    refine extract_excerpt_frame hfk hget ?_ ?_ ?_
    · simp [dKeys, eraseFields]
    · intro w
      unfold isDictAt
      by_cases hw : (k == w) = true
      · simp [dGet, List.find?, hw]
      · have hwb : (k == w) = false := by simpa using hw
        simp [dGet, List.find?, hwb]
    · simp [heuristicOf, dKeys, eraseFields, Function.comp_def]

/-- Witness for C9 at concrete patches: the heuristic fires on a
single-entry container whose sole value is a dict, and record-content
erasure leaves the excerpt unchanged on a two-record container. -/
theorem C9_excerpt_bounded_and_content_free_witness :
    (extract_excerpt [("functions", Val.obj [("w", .obj [("a", .null)])])]
      ).single_key_wrapper_heuristic.isSome = true ∧
    extract_excerpt (dSet [("funcs", Val.obj [("f1", .obj [("x", .num 1)]), ("f2", .str "b")])]
        "funcs" (.obj (eraseRecords [("f1", .obj [("x", .num 1)]), ("f2", .str "b")]))) =
      extract_excerpt [("funcs", Val.obj [("f1", .obj [("x", .num 1)]), ("f2", .str "b")])] := by
  constructor
  · exact (C9_excerpt_bounded_and_content_free
      [("functions", Val.obj [("w", .obj [("a", .null)])])]).2.2.2.1.mpr
      ⟨"functions", "w", [("a", .null)], by decide, by decide⟩
  · exact (C9_excerpt_bounded_and_content_free
      [("funcs", Val.obj [("f1", .obj [("x", .num 1)]), ("f2", .str "b")])]).2.2.2.2.1
      "funcs" [("f1", .obj [("x", .num 1)]), ("f2", .str "b")]
      (by decide) (by decide) (by decide)

/-! ## Claim C8 -/

theorem parseMembers_obj : ∀ (fuel : Nat) (cs : List Char) (acc : PyDict)
    (v : Val) (r : List Char), parseMembers fuel cs acc = some (v, r) →
    ∃ fields, v = Val.obj fields := by
  intro fuel
  induction fuel with
  | zero => intro cs acc v r h; cases h
  | succ n ih =>
    intro cs acc v r h
    unfold parseMembers at h
    match hws : skipWs cs with
    | [] => rw [hws] at h; cases h
    | c :: rest =>
      rw [hws] at h
      dsimp only at h
      by_cases hq : (c == quoteChar) = true
      case neg => rw [if_neg hq] at h; cases h
      case pos =>
      rw [if_pos hq] at h
      match hsb : parseStringBody (rest.length + 1) rest [] with
      | none => rw [hsb] at h; cases h
      | some (key, rest2) =>
        rw [hsb] at h
        dsimp only at h
        match hws2 : skipWs rest2 with
        | [] => rw [hws2] at h; cases h
        | colon :: rest3 =>
          rw [hws2] at h
          dsimp only at h
          by_cases hco : (colon == ':') = true
          case neg => rw [if_neg hco] at h; cases h
          case pos =>
          rw [if_pos hco] at h
          match hv : parseVal n rest3 with
          | none => rw [hv] at h; cases h
          | some (w, rest4) =>
            rw [hv] at h
            dsimp only at h
            match hws3 : skipWs rest4 with
            | [] => rw [hws3] at h; cases h
            | sep :: rest5 =>
              rw [hws3] at h
              dsimp only at h
              by_cases hc1 : (sep == ',') = true
              case pos =>
                rw [if_pos hc1] at h
                exact ih _ _ _ _ h
              case neg =>
              rw [if_neg hc1] at h
              by_cases hc2 : (sep == rbraceChar) = true
              case pos =>
                rw [if_pos hc2] at h
                obtain ⟨h1, h2⟩ := Prod.mk.inj (Option.some.inj h)
                exact ⟨_, h1.symm⟩
              case neg => rw [if_neg hc2] at h; cases h

theorem parseObjBody_obj {fuel : Nat} {cs : List Char} {v : Val} {r : List Char}
    (h : parseObjBody fuel cs = some (v, r)) : ∃ fields, v = Val.obj fields := by
  match fuel with
  | 0 => cases h
  | n+1 =>
    unfold parseObjBody at h
    match hws : skipWs cs with
    | [] => rw [hws] at h; cases h
    | c :: rest =>
      rw [hws] at h
      dsimp only at h
      by_cases hrb : (c == rbraceChar) = true
      · rw [if_pos hrb] at h
        obtain ⟨h1, h2⟩ := Prod.mk.inj (Option.some.inj h)
        exact ⟨_, h1.symm⟩
      · rw [if_neg hrb] at h
        exact parseMembers_obj _ _ _ _ _ h

theorem parseVal_lbrace_obj {fuel : Nat} {cs : List Char} {v : Val} {r : List Char}
    (hhead : ∃ rest, cs = lbraceChar :: rest)
    (h : parseVal fuel cs = some (v, r)) : ∃ fields, v = Val.obj fields := by
  obtain ⟨rest, rfl⟩ := hhead
  match fuel with
  | 0 => cases h
  | n+1 =>
    unfold parseVal at h
    have hjw : jsonWs lbraceChar = false := by decide
    have hws : skipWs (lbraceChar :: rest) = lbraceChar :: rest := by
      simp [skipWs, List.dropWhile_cons, hjw]
    rw [hws] at h
    dsimp only at h
    rw [if_neg (show ¬((lbraceChar == quoteChar) = true) by decide),
        if_pos (show (lbraceChar == lbraceChar) = true by decide)] at h
    exact parseObjBody_obj h

theorem json_loadsL_parseVal {cs : List Char} {v : Val}
    (h : json_loadsL cs = some v) :
    ∃ r, parseVal (3 * cs.length + 3) cs = some (v, r) := by
  unfold json_loadsL at h
  match hp : parseVal (3 * cs.length + 3) cs with
  | none => rw [hp] at h; cases h
  | some (w, rest) =>
    rw [hp] at h
    dsimp only at h
    by_cases he : (skipWs rest).isEmpty = true
    · rw [if_pos he] at h
      obtain rfl := Option.some.inj h
      exact ⟨rest, rfl⟩
    · rw [if_neg he] at h; cases h

theorem idxOfChar_drop {c : Char} : ∀ {cs : List Char} {i : Nat},
    idxOfChar c cs = some i → ∃ rest, cs.drop i = c :: rest := by
  intro cs
  induction cs with
  | nil => intro i h; cases h
  | cons a as ih =>
    intro i h
    unfold idxOfChar at h
    by_cases hac : (a == c) = true
    · rw [if_pos hac] at h
      obtain rfl := Option.some.inj h
      obtain rfl := (beq_iff_eq).mp hac
      exact ⟨as, rfl⟩
    · rw [if_neg hac] at h
      match hi : idxOfChar c as with
      | none => rw [hi] at h; cases h
      | some j =>
        rw [hi] at h
        obtain rfl := Option.some.inj h
        obtain ⟨rest, hr⟩ := ih hi
        exact ⟨rest, by simpa using hr⟩

theorem take_cons_of_pos {α : Type} {l : List α} {a : α} {rest : List α} {n : Nat}
    (hl : l = a :: rest) (hn : 1 ≤ n) : ∃ r2, l.take n = a :: r2 := by
  subst hl
  match n, hn with
  | m+1, _ => exact ⟨rest.take m, rfl⟩

/-- C8 counterexample: a response that is a well-formed JSON *array* and
contains no brace at all — hence no JSON object — is accepted and returned
whole rather than rejected with the claimed error. -/
theorem C8_array_accepted :
    extractJsonObject "[1, 2]" = .ok "[1, 2]" ∧
    json_loads "[1, 2]" = some (.arr [.num 1, .num 2]) ∧
    idxOfChar lbraceChar ("[1, 2]".toList) = none := by
  refine ⟨by decide, by decide, by decide⟩

/-- C8 (amended): whatever `_extract_json_object` returns parses as JSON;
it is either the whole fence-stripped text (which may be *any* JSON
document, object or not) or the first-brace-to-last-brace slice, which, when
it parses, is necessarily a JSON object.  Every error return happens only
when the fence-stripped text does not parse in full; and conversely, when
the fence-stripped text does not parse, a `ValueError` is raised whenever
no brace pair exists (first `\x7b` missing, last `\x7d` missing, or the
last `\x7d` not after the first `\x7b`) or the brace slice fails to
parse. -/
theorem C8_extractor_contract (text : String) :
    (∀ s, extractJsonObject text = .ok s →
      (∃ v, json_loads s = some v) ∧
      (s = String.mk (stripFences text) ∨ ∃ fields, json_loads s = some (.obj fields))) ∧
    (∀ e, extractJsonObject text = .error e →
      json_loadsL (stripFences text) = none) ∧
    (json_loadsL (stripFences text) = none →
      (idxOfChar lbraceChar (stripFences text) = none ∨
       lastIdxOfChar rbraceChar (stripFences text) = none ∨
       ∃ start stop, idxOfChar lbraceChar (stripFences text) = some start ∧
         lastIdxOfChar rbraceChar (stripFences text) = some stop ∧ stop ≤ start) →
      extractJsonObject text = .error (.valueError "No JSON object found in LLM output.")) ∧
    (∀ start stop, json_loadsL (stripFences text) = none →
      idxOfChar lbraceChar (stripFences text) = some start →
      lastIdxOfChar rbraceChar (stripFences text) = some stop →
      start < stop →
      json_loadsL (((stripFences text).drop start).take (stop + 1 - start)) = none →
      extractJsonObject text = .error (.valueError "Extracted JSON is invalid")) := by
  refine ⟨?_, ?_, ?_, ?_⟩
  · intro s hs
    unfold extractJsonObject at hs
    dsimp only at hs
    match hl : json_loadsL (stripFences text) with
    | some v =>
      rw [hl] at hs
      dsimp only at hs
      obtain rfl := Except.ok.inj hs
      exact ⟨⟨v, hl⟩, Or.inl rfl⟩
    | none =>
      rw [hl] at hs
      dsimp only at hs
      match hi : idxOfChar lbraceChar (stripFences text) with
      | none =>
        rw [hi] at hs
        match hj : lastIdxOfChar rbraceChar (stripFences text) with
        | none => rw [hj] at hs; cases hs
        | some stop => rw [hj] at hs; cases hs
      | some start =>
        rw [hi] at hs
        match hj : lastIdxOfChar rbraceChar (stripFences text) with
        | none => rw [hj] at hs; cases hs
        | some stop =>
          rw [hj] at hs
          dsimp only at hs
          by_cases hle : stop ≤ start
          · rw [if_pos hle] at hs; cases hs
          · rw [if_neg hle] at hs
            match hc : json_loadsL (((stripFences text).drop start).take (stop + 1 - start)) with
            | none => rw [hc] at hs; cases hs
            | some w =>
              rw [hc] at hs
              dsimp only at hs
              obtain rfl := Except.ok.inj hs
              refine ⟨⟨w, hc⟩, Or.inr ?_⟩
              obtain ⟨r, hp⟩ := json_loadsL_parseVal hc
              obtain ⟨rest, hdrop⟩ := idxOfChar_drop hi
              have hn : 1 ≤ stop + 1 - start := by omega
              obtain ⟨r2, htake⟩ := take_cons_of_pos hdrop hn
              obtain ⟨fields, rfl⟩ := parseVal_lbrace_obj ⟨r2, htake⟩ hp
              exact ⟨fields, hc⟩
  · intro e he
    unfold extractJsonObject at he
    dsimp only at he
    match hl : json_loadsL (stripFences text) with
    | some v => rw [hl] at he; dsimp only at he; cases he
    | none => rfl
  · intro hl hcase
    unfold extractJsonObject
    dsimp only
    rw [hl]
    dsimp only
    rcases hcase with h | h | ⟨s2, t2, hs2, ht2, hle⟩
    · rw [h]
    · rw [h]
      match hi : idxOfChar lbraceChar (stripFences text) with
      | none => rfl
      | some s => rfl
    · rw [hs2, ht2]
      dsimp only
      rw [if_pos hle]
  · intro start stop hl hi hj hlt hc
    unfold extractJsonObject
    dsimp only
    rw [hl]
    dsimp only
    rw [hi, hj]
    dsimp only
    rw [if_neg (by omega : ¬ stop ≤ start)]
    rw [hc]

/-- Witness for the amended C8: prose around a JSON object yields the
first-brace-to-last-brace slice, which parses as a JSON object; a brace-free
response whose text is not JSON raises the no-object `ValueError`; and a
response whose brace slice is not JSON raises the invalid-JSON
`ValueError`. -/
theorem C8_extractor_contract_witness :
    ((∃ v, json_loads "\x7b\"a\": 1\x7d" = some v) ∧
      ("\x7b\"a\": 1\x7d" = String.mk (stripFences "Plan: \x7b\"a\": 1\x7d done.") ∨
        ∃ fields, json_loads "\x7b\"a\": 1\x7d" = some (.obj fields))) ∧
    extractJsonObject "no json here" =
      .error (.valueError "No JSON object found in LLM output.") ∧
    extractJsonObject "xx\x7boops\x7dyy" =
      .error (.valueError "Extracted JSON is invalid") :=
  ⟨(C8_extractor_contract "Plan: \x7b\"a\": 1\x7d done.").1 "\x7b\"a\": 1\x7d" (by decide),
   (C8_extractor_contract "no json here").2.2.1 (by decide) (Or.inl (by decide)),
   (C8_extractor_contract "xx\x7boops\x7dyy").2.2.2 2 7 (by decide) (by decide) (by decide)
     (by decide) (by decide)⟩

end Zen
